import Mathlib

/-!
# SpotME location tracker: ingestion, registry, view and offline queue

A shallow embedding of the request handlers of `backend/server.js` and of the
offline queue of `frontend/src/hooks/useLocationTracking.js`.

* The Supabase tables are lists of rows, kept in the order the store returns
  them; an insert appends a row.
* `.single()` succeeds on exactly one row and otherwise yields the error
  `PGRST116`; an update that asks for a single row and does not affect exactly
  one is rolled back.
* The JavaScript `Date` built-ins are a parameter (`DateRuntime`).
* The table declarations (column defaults and constraints) are a parameter
  (`Schema`).
-/

namespace SpotME

/-! ## JavaScript values and time -/

/-- A JSON value as a handler reads it from a request body; `other` stands for
an object or an array. -/
inductive JsVal where
  | undefined
  | null
  | bool (b : Bool)
  | num (q : ℚ)
  | str (s : String)
  | other
  deriving DecidableEq, Repr

/-- JavaScript truthiness (`if (v)`, `!v`, `v || w`). -/
def JsVal.truthy : JsVal → Bool
  | .undefined => false
  | .null => false
  | .bool b => b
  | .num q => decide (q ≠ 0)
  | .str s => decide (s ≠ "")
  | .other => true

/-- Truthiness of an optional string field: absent and `""` are falsy. -/
def strTruthy : Option String → Bool
  | none => false
  | some s => decide (s ≠ "")

/-- The time value of a valid `Date`: milliseconds since the epoch, within the
range ECMAScript allows. -/
structure Instant where
  ms : Int
  inRange : -8640000000000000 ≤ ms ∧ ms ≤ 8640000000000000
  deriving DecidableEq

/-- The `Date` built-ins the handlers call. `parse s` is the time value of
`new Date(s)`, `none` when `getTime()` is `NaN`; `toISOString` is
`Date.prototype.toISOString` on a valid date. -/
structure DateRuntime where
  parse : String → Option Instant
  toISOString : Instant → String

/-- The instants the successive `new Date()` / `Date.now()` sites of one
handler invocation read, by site. -/
abbrev Clock := Nat → Instant

/-- The timestamp normalisation of `POST /api/users/update-location`
(the `recordedAt` block and the `lastUpdatedISO` block have this same shape):

```
if (v && typeof v === 'string') {
  const date = new Date(v);
  if (!isNaN(date.getTime())) v = date.toISOString();
  else v = new Date().toISOString();
} else v = new Date().toISOString();
```
-/
def normalizeTimestamp (rt : DateRuntime) (now : Instant) (v : JsVal) : String :=
  match v with
  | .str s =>
    if s ≠ "" then
      match rt.parse s with
      | some t => rt.toISOString t
      | none => rt.toISOString now
    else rt.toISOString now
  | _ => rt.toISOString now

/-! ## The store -/

/-- A row of the `users` table. -/
structure UserRow where
  name : String
  id : String
  is_active : Option Bool
  last_updated : String
  created_at : String
  is_tracking : Option Bool
  admin_tracking_started : Option String
  admin_tracking_started_by : Option String
  admin_tracking_stopped : Option String
  admin_tracking_stopped_by : Option String
  deriving DecidableEq, Repr

/-- A row of the `locations` table; the coordinate columns hold what the
request carried. -/
structure LocationRow where
  user_name : String
  latitude : JsVal
  longitude : JsVal
  accuracy : JsVal
  location_name : JsVal
  recorded_at : String
  created_at : String
  deriving DecidableEq, Repr

/-- The two tables. -/
structure Store where
  users : List UserRow
  locations : List LocationRow
  deriving DecidableEq, Repr

/-- The part of the store the handlers rely on and the sources do not show:
`is_active_missing` is what `is_active` becomes when the inserted object
carries `undefined` for it (the column default, or NULL when the client
library sends a missing field as null), `is_tracking_default` is the default
of the column the insert never names, and the two predicates say whether a
table accepts a new row (column types and constraints). -/
structure Schema where
  is_active_missing : Option Bool
  is_tracking_default : Option Bool
  userInsertOk : List UserRow → UserRow → Bool
  locationInsertOk : List LocationRow → LocationRow → Bool

/-- The result of `.single()`: the row when exactly one row came back. -/
def single {α : Type} : List α → Option α
  | [x] => some x
  | _ => none

/-- The rows `.eq('name', name)` selects. -/
def usersNamed (db : Store) (name : String) : List UserRow :=
  db.users.filter (fun u => decide (u.name = name))

/-- The invariant of the `users` table: the names are distinct and none is
empty. The handlers keep it (`registerUser_wellFormed` and the lemmas after
it), so it holds in every store they build from the empty one. -/
def Store.WellFormed (db : Store) : Prop :=
  (db.users.map fun v => v.name).Nodup ∧ ∀ v ∈ db.users, v.name ≠ ""

instance (db : Store) : Decidable db.WellFormed :=
  inferInstanceAs (Decidable (_ ∧ _))

/-! ## Responses -/

/-- The JSON body of a response. -/
inductive Payload where
  | error (message : String)
  | message (text : String)
  | user (row : UserRow)
  | userLocation (row : UserRow) (location : LocationRow)
  | stamped (text : String) (timestamp : String)
  deriving DecidableEq, Repr

/-- An HTTP response: status code and body. -/
structure Response where
  status : Nat
  payload : Payload
  deriving DecidableEq, Repr

/-! ## User registry -/

/-- The body of `POST /api/users`: `{ name, id, isActive, lastUpdated }`,
each field possibly absent. -/
structure RegisterBody where
  name : Option String
  id : Option String
  isActive : Option Bool
  lastUpdated : Option String
  deriving DecidableEq, Repr

/-- The row `POST /api/users` inserts. Clock sites: 0 `Date.now()` for the id,
1 `new Date()` for `last_updated`, 2 `new Date()` for `created_at`. -/
def newUserRow (schema : Schema) (rt : DateRuntime) (clock : Clock) (body : RegisterBody)
    (name : String) : UserRow :=
  { name := name
    id := if strTruthy body.id then body.id.getD "" else toString (clock 0).ms
    is_active := match body.isActive with
      | some b => some b
      | none => schema.is_active_missing
    last_updated :=
      if strTruthy body.lastUpdated then body.lastUpdated.getD "" else rt.toISOString (clock 1)
    created_at := rt.toISOString (clock 2)
    is_tracking := schema.is_tracking_default
    admin_tracking_started := none
    admin_tracking_started_by := none
    admin_tracking_stopped := none
    admin_tracking_stopped_by := none }

/-- The handler of `POST /api/users`. -/
def registerUser (schema : Schema) (rt : DateRuntime) (clock : Clock) (db : Store)
    (body : RegisterBody) : Store × Response :=
  if strTruthy body.name then
    let name := body.name.getD ""
    match single (usersNamed db name) with
    | some _ => (db, ⟨409, .error "User with this name already exists"⟩)
    | none =>
      let row := newUserRow schema rt clock body name
      if schema.userInsertOk db.users row then
        ({ db with users := db.users ++ [row] }, ⟨200, .user row⟩)
      else (db, ⟨500, .error "Failed to create user"⟩)
  else (db, ⟨400, .error "Name is required"⟩)

/-- The handler of `DELETE /api/users/:name`, once `authenticateAdmin` has let
the request through: the update marks the rows of that name inactive and not
tracking, and `.single()` fails, undoing the update, unless exactly one row
was updated. -/
def deactivateUser (db : Store) (name : String) : Store × Response :=
  let db1 : Store := { db with users := db.users.map (fun u =>
    if u.name = name then { u with is_active := some false, is_tracking := some false } else u) }
  match single (usersNamed db1 name) with
  | some _ => (db1, ⟨200, .message "User deactivated"⟩)
  | none => (db, ⟨500, .error "Failed to deactivate user"⟩)

/-! ## Location ingestion -/

/-- The `location` object of an update request. -/
structure LocationBody where
  latitude : JsVal
  longitude : JsVal
  accuracy : JsVal
  locationName : JsVal
  timestamp : JsVal
  deriving DecidableEq, Repr

/-- The body of `POST /api/users/update-location`: `{ name, location,
lastUpdated }`; `location` is `none` when absent or falsy. -/
structure UpdateBody where
  name : Option String
  location : Option LocationBody
  lastUpdated : JsVal
  deriving DecidableEq, Repr

/-- The handler of `POST /api/users/update-location`. Clock sites: 0 the
`recordedAt` fallback, 1 the `lastUpdatedISO` fallback, 2 `created_at`.
The user update comes first: it fails, and is undone, unless exactly one row
was updated, and it stays when the location insert fails after it. -/
def submitLocation (schema : Schema) (rt : DateRuntime) (clock : Clock) (db : Store)
    (body : UpdateBody) : Store × Response :=
  match strTruthy body.name, body.location with
  | true, some location =>
    let name := body.name.getD ""
    let recordedAt := normalizeTimestamp rt (clock 0) location.timestamp
    let lastUpdatedISO := normalizeTimestamp rt (clock 1) body.lastUpdated
    let db1 : Store := { db with users := db.users.map (fun u =>
      if u.name = name then { u with last_updated := lastUpdatedISO } else u) }
    match single (usersNamed db1 name) with
    | none => (db, ⟨500, .error "Failed to update user location"⟩)
    | some updatedUser =>
      let row : LocationRow :=
        { user_name := name
          latitude := location.latitude
          longitude := location.longitude
          accuracy := location.accuracy
          location_name := location.locationName
          recorded_at := recordedAt
          created_at := rt.toISOString (clock 2) }
      if schema.locationInsertOk db1.locations row then
        ({ db1 with locations := db1.locations ++ [row] }, ⟨200, .userLocation updatedUser row⟩)
      else (db1, ⟨500, .error "Failed to update user location"⟩)
  | _, _ => (db, ⟨400, .error "Name and location are required"⟩)

/-! ## Active-users view -/

/-- The `location` object of a user projection. -/
structure LocationView where
  latitude : JsVal
  longitude : JsVal
  accuracy : JsVal
  timestamp : String
  locationName : JsVal
  deriving DecidableEq, Repr

/-- One element of the array `GET /api/users` answers with. -/
structure UserView where
  id : String
  name : String
  isActive : Option Bool
  lastUpdated : String
  isTracking : Bool
  adminTrackingStarted : Option String
  adminTrackingStartedBy : Option String
  adminTrackingStopped : Option String
  adminTrackingStoppedBy : Option String
  location : Option LocationView
  deriving DecidableEq, Repr

/-- The embedded resource `locations (...)` of a user row: the location rows
of that user, in the order the store returns them (the query gives the
embedded rows no order). -/
def embeddedLocations (db : Store) (u : UserRow) : List LocationRow :=
  db.locations.filter (fun l => decide (l.user_name = u.name))

/-- The instant a stored timestamp denotes, as milliseconds. -/
def tsKey (rt : DateRuntime) (s : String) : Option Int :=
  (rt.parse s).map (fun t => t.ms)

/-- Whether `a` sorts before `b` under `order('last_updated', ascending: false)`. -/
def newerFirst (rt : DateRuntime) (a b : UserRow) : Bool :=
  match tsKey rt a.last_updated, tsKey rt b.last_updated with
  | some x, some y => decide (y ≤ x)
  | none, _ => true
  | some _, none => false

/-- The rows the query of `GET /api/users` returns:
`.eq('is_active', true).order('last_updated', { ascending: false })`. -/
def selectActiveUsers (rt : DateRuntime) (db : Store) : List UserRow :=
  (db.users.filter (fun u => decide (u.is_active = some true))).insertionSort
    (fun a b => newerFirst rt a b = true)

/-- The mapping `users.map(user => ...)` of `GET /api/users` on one row:
the location is built from `user.locations[0]`. -/
def toUserView (u : UserRow) (locations : List LocationRow) : UserView :=
  { id := u.id
    name := u.name
    isActive := u.is_active
    lastUpdated := u.last_updated
    isTracking := u.is_tracking.getD false
    adminTrackingStarted := u.admin_tracking_started
    adminTrackingStartedBy := u.admin_tracking_started_by
    adminTrackingStopped := u.admin_tracking_stopped
    adminTrackingStoppedBy := u.admin_tracking_stopped_by
    location := match locations with
      | [] => none
      | l :: _ => some
        { latitude := l.latitude
          longitude := l.longitude
          accuracy := l.accuracy
          timestamp := l.recorded_at
          locationName := l.location_name } }

/-- The handler of `GET /api/users`. -/
def listActiveUsers (rt : DateRuntime) (db : Store) : List UserView :=
  (selectActiveUsers rt db).map (fun u => toUserView u (embeddedLocations db u))

/-- The current location as the specification defines it, not what the
handler computes: a row of the list whose `recordedAt` is maximal (the first
such row), by the instants the timestamps denote. -/
def latestByRecordedAt (rt : DateRuntime) : List LocationRow → Option LocationRow
  | [] => none
  | l :: ls =>
    match latestByRecordedAt rt ls with
    | none => some l
    | some best =>
      match tsKey rt l.recorded_at, tsKey rt best.recorded_at with
      | some x, some y => if y ≤ x then some l else some best
      | some _, none => some l
      | none, _ => some best

/-! ## The raw-sample endpoint -/

/-- A cached sample of the offline queue: the captured location with its
place name and the instant it was cached. -/
structure PendingSample where
  latitude : JsVal
  longitude : JsVal
  accuracy : JsVal
  timestamp : String
  method : String
  locationName : String
  cachedAt : String
  deriving DecidableEq, Repr

/-- The handler of `POST /api/location`: it logs the sample and answers
`{ success: true, message: 'Location received' }`; it touches no table. -/
def postLocation (db : Store) (_body : PendingSample) : Store × Response :=
  (db, ⟨200, .message "Location received"⟩)

/-! ## Offline sample queue (client) -/

/-- A status message of the tracking hook. -/
structure Status where
  kind : String
  message : String
  deriving DecidableEq, Repr

/-- The queue state of the tracking hook: the React state `pendingLocations`,
the array stored under the `localStorage` key `pendingLocations` (empty when
the key is absent) and the current `status`. -/
structure Tracker where
  pendingLocations : List PendingSample
  stored : List PendingSample
  status : Option Status
  deriving DecidableEq, Repr

/-- What the network does with one request. -/
inductive NetEvent where
  | delivered
  | refused
  | rejected
  | responseLost
  deriving DecidableEq, Repr

/-- What `await fetch(...)` gives the caller: a response with `response.ok`,
a response without it, or a rejected promise. -/
inductive FetchResult where
  | ok
  | notOk
  | threw
  deriving DecidableEq, Repr

/-- The world a client request acts on: the server's tables, the samples the
`/api/location` handler has logged, and every request issued so far. -/
structure World where
  server : Store
  received : List PendingSample
  requests : List PendingSample
  deriving DecidableEq, Repr

/-- One `fetch('/api/location', { method: 'POST', body })`. The request is
number `w.requests.length`; `net` says what the network does with it:
`delivered` runs the handler and returns its response, `responseLost` runs the
handler but the promise rejects, `refused` rejects before the server is
reached, `rejected` is a non-2xx answer from an intermediary. -/
def fetchLocation (net : Nat → NetEvent) (w : World) (body : PendingSample) :
    FetchResult × World :=
  let w1 : World := { w with requests := w.requests ++ [body] }
  match net w.requests.length with
  | .delivered =>
    let r := postLocation w.server body
    (if 200 ≤ r.2.status ∧ r.2.status < 300 then .ok else .notOk,
      { w1 with server := r.1, received := w.received ++ [body] })
  | .responseLost =>
    let r := postLocation w.server body
    (.threw, { w1 with server := r.1, received := w.received ++ [body] })
  | .refused => (.threw, w1)
  | .rejected => (.notOk, w1)

/-- The loop of `syncPendingLocations` over the snapshot `locationsToSync`,
threading `successCount` and `errorCount`: a response that is `ok` counts as a
success, any other response and a thrown error count as an error, and the loop
goes on either way. -/
def syncLoop (net : Nat → NetEvent) : World → List PendingSample → Nat → Nat → World × Nat × Nat
  | w, [], successCount, errorCount => (w, successCount, errorCount)
  | w, locationData :: rest, successCount, errorCount =>
    match fetchLocation net w locationData with
    | (.ok, w1) => syncLoop net w1 rest (successCount + 1) errorCount
    | (_, w1) => syncLoop net w1 rest successCount (errorCount + 1)

/-- What a run of `syncPendingLocations` leaves behind: the world, the hook
state, and the value the returned promise resolves to. -/
structure SyncOutcome where
  world : World
  tracker : Tracker
  returned : JsVal
  deriving DecidableEq, Repr

/-- The function `syncPendingLocations` of the tracking hook, run without
interleaving. With `successCount > 0` the first `successCount` entries are
sliced off both lists; the function has no `return` with a value. -/
def syncPendingLocations (net : Nat → NetEvent) (w : World) (c : Tracker) : SyncOutcome :=
  if c.pendingLocations.length = 0 then ⟨w, c, .undefined⟩
  else
    let c1 : Tracker := { c with status := some ⟨"info",
      "Syncing " ++ toString c.pendingLocations.length ++ " cached locations..."⟩ }
    let r := syncLoop net w c.pendingLocations 0 0
    let successCount := r.2.1
    let errorCount := r.2.2
    let c2 : Tracker :=
      if successCount > 0 then
        { pendingLocations := c1.pendingLocations.drop successCount
          stored := c1.stored.drop successCount
          status := some ⟨"success",
            "Synced " ++ toString successCount ++ " locations successfully!"⟩ }
      else c1
    let c3 : Tracker :=
      if errorCount > 0 then
        { c2 with status := some ⟨"warning",
          toString errorCount ++ " locations failed to sync and will be retried later."⟩ }
      else c2
    ⟨r.1, c3, .undefined⟩

/-- The captured location `updateLocation` builds before caching it. -/
structure NewLocation where
  latitude : JsVal
  longitude : JsVal
  accuracy : JsVal
  timestamp : String
  method : String
  deriving DecidableEq, Repr

/-- The function `cacheLocationForOffline` of the tracking hook: the sample,
with its place name and `cachedAt`, is appended to the React state and to the
stored array. -/
def cacheLocationForOffline (rt : DateRuntime) (now : Instant) (c : Tracker)
    (locationData : NewLocation) (locationName : String) : Tracker :=
  let locationWithName : PendingSample :=
    { latitude := locationData.latitude
      longitude := locationData.longitude
      accuracy := locationData.accuracy
      timestamp := locationData.timestamp
      method := locationData.method
      locationName := locationName
      cachedAt := rt.toISOString now }
  { c with
    pendingLocations := c.pendingLocations ++ [locationWithName]
    stored := c.stored ++ [locationWithName] }

/-- Whether request number `k` comes back with `response.ok`. -/
def sendOk (net : Nat → NetEvent) (k : Nat) : Bool :=
  decide (net k = .delivered)

/-- The queue the specification asks for after a drain that starts at request
number `base`: the samples whose own send failed, in their original order. -/
def failedSamples (net : Nat → NetEvent) (base : Nat) : List PendingSample → List PendingSample
  | [] => []
  | x :: xs =>
    if sendOk net base then failedSamples net (base + 1) xs
    else x :: failedSamples net (base + 1) xs

/-- The number of sends of a drain over `n` samples, starting at request
number `base`, that come back `ok`. -/
def okCount (net : Nat → NetEvent) (base : Nat) : Nat → Nat
  | 0 => 0
  | n + 1 => (if sendOk net base then 1 else 0) + okCount net (base + 1) n

/-! ## Admin identity -/

/-- The object the handlers read as `req.adminUser`, as far as they read it:
`name` is `none` when `req.adminUser.name` is `undefined`. -/
structure AdminUser where
  name : Option String
  deriving DecidableEq, Repr

/-- Modelled from the spec: `middleware/auth.js` is not among the sources.
Sections 4.6, 6 and 7: the admin identity verifier, given a credential token,
returns an authenticated admin principal or rejects, and is opaque beyond pass
or fail and the principal's name; a missing credential is answered 401 and an
invalid or expired one 403. `verify` is the verifier, from a token to the
principal's name. -/
def authenticateAdmin (verify : String → Option String) (token : Option String) :
    Except Response AdminUser :=
  match token with
  | none => .error ⟨401, .error "No token provided"⟩
  | some t =>
    match verify t with
    | none => .error ⟨403, .error "Invalid or expired token"⟩
    | some name => .ok ⟨some name⟩

/-! ## Admin tracking controller -/

/-- The body of `POST /api/users/start-tracking` and of
`POST /api/users/stop-tracking`: `{ userName }`. -/
structure TrackingBody where
  userName : Option String
  deriving DecidableEq, Repr

/-- What an update writes into a `..._by` column from `req.adminUser.name`:
an `undefined` value is left out of the request and the column keeps its
value. -/
def writeBy (admin : AdminUser) (old : Option String) : Option String :=
  match admin.name with
  | some n => some n
  | none => old

/-- The handler of `POST /api/users/start-tracking`, once `authenticateAdmin`
has set `req.adminUser`. The update is
`.eq('name', userName).eq('is_active', true)` and asks for no row back.
Clock sites: 0 `admin_tracking_started`, 1 the timestamp of the answer. -/
def startTracking (rt : DateRuntime) (clock : Clock) (admin : AdminUser) (db : Store)
    (body : TrackingBody) : Store × Response :=
  if strTruthy body.userName then
    let userName := body.userName.getD ""
    ({ db with users := db.users.map (fun u =>
        if u.name = userName ∧ u.is_active = some true then
          { u with
            is_tracking := some true
            admin_tracking_started := some (rt.toISOString (clock 0))
            admin_tracking_started_by := writeBy admin u.admin_tracking_started_by }
        else u) },
      ⟨200, .stamped ("Started tracking for user: " ++ userName) (rt.toISOString (clock 1))⟩)
  else (db, ⟨400, .error "Username is required"⟩)

/-- The handler of `POST /api/users/stop-tracking`, once `authenticateAdmin`
has set `req.adminUser`. Clock sites: 0 `admin_tracking_stopped`, 1 the
timestamp of the answer. -/
def stopTracking (rt : DateRuntime) (clock : Clock) (admin : AdminUser) (db : Store)
    (body : TrackingBody) : Store × Response :=
  if strTruthy body.userName then
    let userName := body.userName.getD ""
    ({ db with users := db.users.map (fun u =>
        if u.name = userName ∧ u.is_active = some true then
          { u with
            is_tracking := some false
            admin_tracking_stopped := some (rt.toISOString (clock 0))
            admin_tracking_stopped_by := writeBy admin u.admin_tracking_stopped_by }
        else u) },
      ⟨200, .stamped ("Stopped tracking for user: " ++ userName) (rt.toISOString (clock 1))⟩)
  else (db, ⟨400, .error "Username is required"⟩)

/-- The handler of `POST /api/users/start-all-tracking`, once
`authenticateAdmin` has set `req.adminUser`: the update is
`.eq('is_active', true)`. -/
def startAllTracking (rt : DateRuntime) (clock : Clock) (admin : AdminUser) (db : Store) :
    Store × Response :=
  ({ db with users := db.users.map (fun u =>
      if u.is_active = some true then
        { u with
          is_tracking := some true
          admin_tracking_started := some (rt.toISOString (clock 0))
          admin_tracking_started_by := writeBy admin u.admin_tracking_started_by }
      else u) },
    ⟨200, .stamped "Started tracking for all users" (rt.toISOString (clock 1))⟩)

/-- The handler of `POST /api/users/stop-all-tracking`, once
`authenticateAdmin` has set `req.adminUser`. -/
def stopAllTracking (rt : DateRuntime) (clock : Clock) (admin : AdminUser) (db : Store) :
    Store × Response :=
  ({ db with users := db.users.map (fun u =>
      if u.is_active = some true then
        { u with
          is_tracking := some false
          admin_tracking_stopped := some (rt.toISOString (clock 0))
          admin_tracking_stopped_by := writeBy admin u.admin_tracking_stopped_by }
      else u) },
    ⟨200, .stamped "Stopped tracking for all users" (rt.toISOString (clock 1))⟩)

/-! ## The `DELETE` routes under `/api/users/` -/

/-- The handler registered for `DELETE /api/users/clear-all`: an update of
`is_active` to false with no filter, which the store is taken to accept. -/
def clearAllUsers (db : Store) : Store × Response :=
  ({ db with users := db.users.map (fun u => { u with is_active := some false }) },
    ⟨200, .message "All users deactivated"⟩)

/-- The last segment of a route path: a parameter such as `:name`, or a
literal. -/
inductive RouteSegment where
  | param
  | literal (s : String)
  deriving DecidableEq, Repr

/-- Whether a route segment matches a path segment: a parameter matches every
non-empty segment, a literal matches itself. -/
def RouteSegment.accepts : RouteSegment → String → Bool
  | .param, seg => decide (seg ≠ "" ∧ '/' ∉ seg.data)
  | .literal s, seg => decide (seg = s)

/-- The handlers of the two `DELETE` routes. -/
inductive DeleteHandler where
  | deactivate
  | clearAll
  deriving DecidableEq, Repr

/-- The `DELETE` routes under `/api/users/` in the order `server.js`
registers them: `/api/users/:name` first, `/api/users/clear-all` second. -/
def deleteRoutes : List (RouteSegment × DeleteHandler) :=
  [(.param, .deactivate), (.literal "clear-all", .clearAll)]

/-- A request `DELETE /api/users/<segment>`: the first registered route that
matches gets the request; its middleware `authenticateAdmin` answers or lets
it through to the handler, which answers without passing the request on. A
path no route matches is answered by the framework with 404. -/
def deleteUsersRequest (verify : String → Option String) (token : Option String) (db : Store)
    (segment : String) : Store × Response :=
  match deleteRoutes.find? (fun r => r.1.accepts segment) with
  | none => (db, ⟨404, .error "Cannot DELETE"⟩)
  | some r =>
    match authenticateAdmin verify token with
    | .error resp => (db, resp)
    | .ok _ =>
      match r.2 with
      | .deactivate => deactivateUser db segment
      | .clearAll => clearAllUsers db

/-! ## The `GET` routes under `/api/users` -/

/-- A row of the view `latest_user_locations`, with the columns the handler
of `GET /api/users/:name` reads. -/
structure LatestRow where
  name : String
  id : String
  is_active : Option Bool
  last_updated : String
  latitude : JsVal
  longitude : JsVal
  accuracy : JsVal
  location_name : JsVal
  timestamp : JsVal
  deriving DecidableEq, Repr

/-- Modelled from the spec: the view `latest_user_locations` is declared in
SQL that is not among the sources. Sections 3 and 4.5: each user is joined
with the sample of that user that has the maximum `recordedAt`, or with none
if the user has never reported a location (the location columns are then
NULL). -/
def latestUserLocations (rt : DateRuntime) (db : Store) : List LatestRow :=
  db.users.map (fun u =>
    match latestByRecordedAt rt (embeddedLocations db u) with
    | none => ⟨u.name, u.id, u.is_active, u.last_updated, .null, .null, .null, .null, .null⟩
    | some l =>
      ⟨u.name, u.id, u.is_active, u.last_updated, l.latitude, l.longitude, l.accuracy,
        l.location_name, .str l.recorded_at⟩)

/-- The `location` object of the projection of `GET /api/users/:name`. -/
structure LocationInfo where
  latitude : JsVal
  longitude : JsVal
  accuracy : JsVal
  locationName : JsVal
  timestamp : JsVal
  deriving DecidableEq, Repr

/-- The object `GET /api/users/:name` answers with. -/
structure UserProjection where
  name : String
  id : String
  isActive : Option Bool
  lastUpdated : String
  location : Option LocationInfo
  deriving DecidableEq, Repr

/-- The JSON body of the answer to a `GET` request. -/
inductive ReadPayload where
  | error (message : String)
  | users (list : List UserView)
  | projection (user : UserProjection)
  | trackingStates (states : List (String × Bool))
  | file (path : String)
  deriving DecidableEq, Repr

/-- The answer to a `GET` request: status code and body. -/
structure ReadResponse where
  status : Nat
  payload : ReadPayload
  deriving DecidableEq, Repr

/-- The handler of `GET /api/users` as a request on the store: it answers
with the projections and writes nothing. -/
def getUsers (rt : DateRuntime) (db : Store) : Store × ReadResponse :=
  (db, ⟨200, .users (listActiveUsers rt db)⟩)

/-- The transformation of a view row in `GET /api/users/:name`: the location
is built when `user.latitude && user.longitude` is truthy. -/
def toProjection (user : LatestRow) : UserProjection :=
  { name := user.name
    id := user.id
    isActive := user.is_active
    lastUpdated := user.last_updated
    location :=
      if user.latitude.truthy && user.longitude.truthy then
        some
          { latitude := user.latitude
            longitude := user.longitude
            accuracy := user.accuracy
            locationName := user.location_name
            timestamp := user.timestamp }
      else none }

/-- The handler of `GET /api/users/:name` on the rows of the view: the query
is `.eq('name', name).eq('is_active', true).single()`, and `PGRST116` is
answered 404. -/
def getUser (view : List LatestRow) (name : String) : ReadResponse :=
  match single (view.filter (fun r => decide (r.name = name ∧ r.is_active = some true))) with
  | none => ⟨404, .error "User not found"⟩
  | some user => ⟨200, .projection (toProjection user)⟩

/-- The assignment `states[key] = value` on an object kept as a list of
entries: an existing key keeps its place and gets the new value. -/
def assignKey (states : List (String × Bool)) (key : String) (value : Bool) :
    List (String × Bool) :=
  if states.any (fun e => decide (e.1 = key)) then
    states.map (fun e => if e.1 = key then (key, value) else e)
  else states ++ [(key, value)]

/-- The handler registered for `GET /api/users/tracking-status`, once
`authenticateAdmin` has let the request through: for every active user,
`trackingStates[user.name] = user.is_tracking || false`. -/
def trackingStatus (db : Store) : Store × ReadResponse :=
  (db, ⟨200, .trackingStates
    ((db.users.filter (fun u => decide (u.is_active = some true))).foldl
      (fun states u => assignKey states u.name (u.is_tracking.getD false)) [])⟩)

/-- The handlers of the two `GET` routes with a segment after `/api/users/`. -/
inductive GetHandler where
  | getUser
  | trackingStatus
  deriving DecidableEq, Repr

/-- The `GET` routes under `/api/users/` in the order `server.js` registers
them: `/api/users/:name`, which has no middleware, and later
`/api/users/tracking-status`, which has `authenticateAdmin`. -/
def getRoutes : List (RouteSegment × GetHandler) :=
  [(.param, .getUser), (.literal "tracking-status", .trackingStatus)]

/-- A request `GET /api/users/<segment>`: the first registered route that
matches gets the request and answers it. `view` holds the rows of
`latest_user_locations`. A path no route matches falls to the catch-all route,
which serves the front end. -/
def getUsersRequest (verify : String → Option String) (token : Option String)
    (view : List LatestRow) (db : Store) (segment : String) : Store × ReadResponse :=
  match getRoutes.find? (fun r => r.1.accepts segment) with
  | none => (db, ⟨200, .file "../frontend/dist/index.html"⟩)
  | some r =>
    match r.2 with
    | .getUser => (db, getUser view segment)
    | .trackingStatus =>
      match authenticateAdmin verify token with
      | .error resp =>
        (db, ⟨resp.status, .error (match resp.payload with
          | .error m => m
          | _ => "")⟩)
      | .ok _ => trackingStatus db

/-! ## The tracking hook (client) -/

/-- The part of `updateLocation` that follows the capture of a position and
the lookup of its place name: the status is set to success; when online the
sample is posted to `/api/location` and cached only if the `fetch` throws
(the response is not inspected); when offline it is cached and the status is
a warning. `sent` is what the `fetch` gives. -/
def reportLocation (rt : DateRuntime) (now : Instant) (isOnline : Bool) (sent : FetchResult)
    (c : Tracker) (newLocation : NewLocation) (locationName : String) : Tracker :=
  let c1 : Tracker := { c with status := some ⟨"success", "Location updated successfully!"⟩ }
  if isOnline then
    match sent with
    | .threw => cacheLocationForOffline rt now c1 newLocation locationName
    | _ => c1
  else
    { cacheLocationForOffline rt now c1 newLocation locationName with
      status := some ⟨"warning",
        "Location cached offline. Will sync when connection is restored."⟩ }

/-- The state of `useLocationTracking` with its timer: the queue state, the
flag `isTracking`, the handle in `intervalRef.current`, the handles of the
intervals the browser is running, the next handle `setInterval` gives out, and
the value of `pendingLocations.length` the effect last ran with. -/
structure Hook where
  tracker : Tracker
  isTracking : Bool
  intervalRef : Option Nat
  running : List Nat
  nextHandle : Nat
  effectLength : Nat
  deriving DecidableEq, Repr

/-- The cleanup function the effect returns: `clearInterval` on the handle in
`intervalRef.current`, which stays in the ref. -/
def Hook.cleanup (h : Hook) : Hook :=
  match h.intervalRef with
  | some handle => { h with running := h.running.erase handle }
  | none => h

/-- The body of the effect, as far as it touches the queue: the stored array
is read, and when it is not empty it becomes `pendingLocations` and the status
announces it. -/
def Hook.runEffect (h : Hook) : Hook :=
  if h.tracker.stored.length > 0 then
    { h with tracker :=
      { h.tracker with
        pendingLocations := h.tracker.stored
        status := some ⟨"info", toString h.tracker.stored.length ++
          " cached locations found. Will sync when connection is restored."⟩ } }
  else h

/-- One render: the effect has the dependency `pendingLocations.length`, so
when that value differs from the one the effect last ran with, the cleanup of
the last run is called and the effect runs again. -/
def Hook.render (h : Hook) : Hook :=
  if h.tracker.pendingLocations.length = h.effectLength then h
  else
    Hook.runEffect { Hook.cleanup h with effectLength := h.tracker.pendingLocations.length }

/-- The renders that follow a state update: the effect can set the queue once
more, which is one more render. -/
def Hook.settle (h : Hook) : Hook :=
  Hook.render (Hook.render h)

/-- The first render and the first run of the effect, with `stored` under the
`localStorage` key: `pendingLocations` starts empty. -/
def Hook.mount (stored : List PendingSample) : Hook :=
  Hook.settle (Hook.runEffect ⟨⟨[], stored, none⟩, false, none, [], 0, 0⟩)

/-- The function `startTracking` of the hook: the flag is set and
`intervalRef.current = setInterval(updateLocation, 3000)`. -/
def Hook.startTracking (h : Hook) : Hook :=
  { h with
    isTracking := true
    tracker := { h.tracker with status := some ⟨"info",
      "Live tracking started! Updating every 3 seconds..."⟩ }
    intervalRef := some h.nextHandle
    running := h.nextHandle :: h.running
    nextHandle := h.nextHandle + 1 }

/-- The function `stopTracking` of the hook: the flag is cleared, the interval
in the ref is cleared and the ref is set to null. -/
def Hook.stopTracking (h : Hook) : Hook :=
  let h1 : Hook :=
    { h with
      isTracking := false
      tracker := { h.tracker with status := some ⟨"info", "Live tracking stopped."⟩ } }
  match h1.intervalRef with
  | some handle => { h1 with running := h1.running.erase handle, intervalRef := none }
  | none => h1

/-- A sample is cached by `cacheLocationForOffline` and the component renders
again. -/
def Hook.enqueue (rt : DateRuntime) (now : Instant) (h : Hook) (locationData : NewLocation)
    (locationName : String) : Hook :=
  Hook.settle
    { h with tracker := cacheLocationForOffline rt now h.tracker locationData locationName }

/-- A drain by `syncPendingLocations` and the renders after it. -/
def Hook.drain (net : Nat → NetEvent) (w : World) (h : Hook) : Hook :=
  Hook.settle { h with tracker := (syncPendingLocations net w h.tracker).tracker }

/-- Whether the sampling timer is alive: the interval whose handle is in the
ref is one the browser is running. -/
def Hook.timerActive (h : Hook) : Bool :=
  match h.intervalRef with
  | some handle => decide (handle ∈ h.running)
  | none => false

/-! ## The admin console -/

/-- The palette `markerColors`. -/
def markerColors : List String :=
  ["#FF6B6B", "#4ECDC4", "#45B7D1", "#96CEB4", "#FFEAA7", "#DDA0DD", "#98D8C8", "#F7DC6F",
    "#BB8FCE", "#85C1E9", "#F8C471", "#82E0AA", "#F1948A", "#74B9FF", "#FAD7A0"]

/-- The conversion `ToInt32`: the integer modulo 2^32 taken in the signed
32-bit range. -/
def toInt32 (x : Int) : Int :=
  (x + 2147483648) % 4294967296 - 2147483648

/-- The expression `hash << 5`: the operand is converted with `ToInt32` and
the shifted value is again a signed 32-bit integer. -/
def shiftLeft5 (hash : Int) : Int :=
  toInt32 (toInt32 hash * 32)

/-- The UTF-16 code units of a string, the values `charCodeAt` returns. -/
def utf16Units (s : String) : List Nat :=
  s.data.flatMap (fun c =>
    if c.toNat < 65536 then [c.toNat]
    else [55296 + (c.toNat - 65536) / 1024, 56320 + (c.toNat - 65536) % 1024])

/-- The loop of `getUserColor`:
`hash = userName.charCodeAt(i) + ((hash << 5) - hash)`, from 0; only the
shift is a 32-bit operation, the sum is not truncated. -/
def nameHash (units : List Nat) : Int :=
  units.foldl (fun (hash : Int) (c : Nat) => (c : Int) + (shiftLeft5 hash - hash)) 0

/-- The index `Math.abs(hash) % markerColors.length` of `getUserColor`. -/
def colorIndex (userName : String) : Nat :=
  (nameHash (utf16Units userName)).natAbs % markerColors.length

/-- The function `getUserColor`: `markerColors[index]`, `none` standing for
`undefined`. -/
def getUserColor (userName : String) : Option String :=
  markerColors[colorIndex userName]?

/-- The conversion `ToNumber`, `none` standing for `NaN`; `conv` is the
runtime's conversion of strings and objects. -/
def JsVal.toNumber (conv : JsVal → Option ℚ) : JsVal → Option ℚ
  | .undefined => none
  | .null => some 0
  | .bool b => some (if b then 1 else 0)
  | .num q => some q
  | .str s => conv (.str s)
  | .other => conv .other

/-- The comparison `lo <= v && v <= hi` after `ToNumber`; a `NaN` compares
false. -/
def JsVal.within (conv : JsVal → Option ℚ) (v : JsVal) (lo hi : ℚ) : Bool :=
  match v.toNumber conv with
  | some q => decide (lo ≤ q ∧ q ≤ hi)
  | none => false

/-- The condition under which the marker effect creates a marker for a user:
`user.location && user.location.latitude && user.location.longitude &&
!isNaN(latitude) && !isNaN(longitude) && latitude >= -90 && latitude <= 90 &&
longitude >= -180 && longitude <= 180`. -/
def markerShown (conv : JsVal → Option ℚ) (user : UserView) : Bool :=
  match user.location with
  | none => false
  | some location =>
    location.latitude.truthy && location.longitude.truthy &&
      (location.latitude.toNumber conv).isSome && (location.longitude.toNumber conv).isSome &&
      location.latitude.within conv (-90) 90 && location.longitude.within conv (-180) 180

/-- The claim's condition for a marker: the user has a location whose
latitude lies in [-90, 90] and whose longitude lies in [-180, 180]. -/
def hasValidLocation (conv : JsVal → Option ℚ) (user : UserView) : Bool :=
  match user.location with
  | none => false
  | some location =>
    location.latitude.within conv (-90) 90 && location.longitude.within conv (-180) 180

/-! ## A reference `Date` runtime -/

/-- The day number of the first day of year `y` (ECMAScript `DayFromYear`). -/
def dayFromYear (y : Int) : Int :=
  365 * (y - 1970) + (y - 1969) / 4 - (y - 1901) / 100 + (y - 1601) / 400

/-- The year a day number falls in (ECMAScript `YearFromTime`): the largest
`y` with `dayFromYear y ≤ day`, found from an estimate that is off by at most
one. -/
def yearFromDay (day : Int) : Int :=
  let y0 := 1970 + day * 400 / 146097
  if day < dayFromYear y0 then y0 - 1
  else if dayFromYear (y0 + 1) ≤ day then y0 + 1
  else y0

/-- One for a leap year, zero otherwise (ECMAScript `InLeapYear`). -/
def inLeapYear (y : Int) : Nat :=
  if (y % 4 = 0 ∧ y % 100 ≠ 0) ∨ y % 400 = 0 then 1 else 0

/-- The lengths of the twelve months of a year. -/
def monthLengths (leap : Nat) : List Nat :=
  [31, 28 + leap, 31, 30, 31, 30, 31, 31, 30, 31, 30, 31]

/-- The month index (0 is the first) and the day within the month of day `d`
of a year with these month lengths (ECMAScript `MonthFromTime`, `DateFromTime`). -/
def splitMonth : List Nat → Nat → Nat × Nat
  | [], d => (0, d)
  | len :: rest, d =>
    if d < len then (0, d) else ((splitMonth rest (d - len)).1 + 1, (splitMonth rest (d - len)).2)

/-- The number of days before month index `m`. -/
def daysBeforeMonth (lens : List Nat) (m : Nat) : Nat :=
  (lens.take m).sum

/-- The decimal digit character of `n % 10`. -/
def digitChar (n : Nat) : Char := Char.ofNat (48 + n % 10)

/-- Two decimal digits. -/
def pad2 (n : Nat) : List Char := [digitChar (n / 10), digitChar n]

/-- Three decimal digits. -/
def pad3 (n : Nat) : List Char := [digitChar (n / 100), digitChar (n / 10), digitChar n]

/-- Four decimal digits. -/
def pad4 (n : Nat) : List Char := digitChar (n / 1000) :: pad3 n

/-- Six decimal digits. -/
def pad6 (n : Nat) : List Char := digitChar (n / 100000) :: digitChar (n / 10000) :: pad4 n

/-- The year of the date-time string format: four digits for 0 to 9999,
otherwise a sign and six digits. -/
def yearChars (y : Int) : List Char :=
  if 0 ≤ y ∧ y ≤ 9999 then pad4 y.toNat
  else (if y < 0 then '-' else '+') :: pad6 y.natAbs

/-- The characters of `toISOString` for a time value:
`YYYY-MM-DDTHH:mm:ss.sssZ`. -/
def isoChars (ms : Int) : List Char :=
  let day := ms / 86400000
  let r := (ms % 86400000).toNat
  let y := yearFromDay day
  let md := splitMonth (monthLengths (inLeapYear y)) (day - dayFromYear y).toNat
  yearChars y ++ '-' :: pad2 (md.1 + 1) ++ '-' :: pad2 (md.2 + 1) ++
    'T' :: pad2 (r / 3600000) ++ ':' :: pad2 (r / 60000 % 60) ++ ':' :: pad2 (r / 1000 % 60) ++
    '.' :: pad3 (r % 1000) ++ ['Z']

/-- The value of a decimal digit character. -/
def digitVal (c : Char) : Option Nat :=
  if 48 ≤ c.toNat ∧ c.toNat ≤ 57 then some (c.toNat - 48) else none

/-- The value of a run of decimal digits, most significant first. -/
def digitsVal (acc : Nat) : List Char → Option Nat
  | [] => some acc
  | c :: cs => (digitVal c).bind fun d => digitsVal (acc * 10 + d) cs

/-- The time value of year `y` and the fields after the year,
`-MM-DDTHH:mm:ss.sssZ` (ECMAScript `MakeDay`, `MakeTime`, `MakeDate`). -/
def isoTail (y : Int) : List Char → Option Int
  | [c0, m1, m2, c1, d1, d2, cT, h1, h2, c2, n1, n2, c3, s1, s2, c4, f1, f2, f3, cZ] =>
    if c0 = '-' ∧ c1 = '-' ∧ cT = 'T' ∧ c2 = ':' ∧ c3 = ':' ∧ c4 = '.' ∧ cZ = 'Z' then
      (digitsVal 0 [m1, m2]).bind fun m =>
      (digitsVal 0 [d1, d2]).bind fun d =>
      (digitsVal 0 [h1, h2]).bind fun h =>
      (digitsVal 0 [n1, n2]).bind fun n =>
      (digitsVal 0 [s1, s2]).bind fun s =>
      (digitsVal 0 [f1, f2, f3]).bind fun f =>
      some ((dayFromYear y +
          ((daysBeforeMonth (monthLengths (inLeapYear y)) (m - 1) + d : Nat) : Int) - 1) * 86400000
        + ((h * 3600000 + n * 60000 + s * 1000 + f : Nat) : Int))
    else none
  | _ => none

/-- The time value a string of the shape `toISOString` produces stands for. -/
def isoCandidate (cs : List Char) : Option Int :=
  match cs with
  | c :: y1 :: y2 :: y3 :: y4 :: rest =>
    if c = '+' ∨ c = '-' then
      match rest with
      | y5 :: y6 :: rest6 =>
        (digitsVal 0 [y1, y2, y3, y4, y5, y6]).bind fun y =>
          isoTail (if c = '-' then -(y : Int) else y) rest6
      | _ => none
    else (digitsVal 0 [c, y1, y2, y3]).bind fun y => isoTail y (y4 :: rest)
  | _ => none

/-- `Date.parse` on the strings `toISOString` produces: the string must be
the rendering of the time value it stands for, and that value must be in
range. -/
def parseCanonical (s : String) : Option Instant :=
  match isoCandidate s.data with
  | some t =>
    if h : -8640000000000000 ≤ t ∧ t ≤ 8640000000000000 then
      if isoChars t = s.data then some ⟨t, h⟩ else none
    else none
  | none => none

/-- A `Date` runtime: the canonical format is read and written as ECMAScript
specifies; for every other string the engine's own fallback `legacy` decides. -/
def jsDate (legacy : String → Option Instant) : DateRuntime where
  parse s := match parseCanonical s with
    | some t => some t
    | none => legacy s
  toISOString t := String.mk (isoChars t.ms)

/-- The reference runtime with an engine that reads nothing but the canonical
format. -/
def refDate : DateRuntime := jsDate fun _ => none

/-! ## Instances for the worked examples -/

/-- Modelled from the spec: the table declarations are not among the sources.
Section 3 makes `name` unique among the user rows, and section 4.4 has a fresh
user active and not tracking; every location row is accepted. -/
def refSchema : Schema :=
  { is_active_missing := some true
    is_tracking_default := some false
    userInsertOk := fun rows r => decide (∀ u ∈ rows, u.name ≠ r.name)
    locationInsertOk := fun _ _ => true }

/-- The instant 2024-01-01T12:00:00.000Z. -/
def noon : Instant := ⟨1704110400000, by decide⟩

/-- A clock that reads `noon` at every site. -/
def noonClock : Clock := fun _ => noon

/-- The empty store. -/
def emptyStore : Store := ⟨[], []⟩

/-- A registration body as `handleNameSubmit` sends it. -/
def registration (name : String) : RegisterBody :=
  ⟨some name, some "1704110000000", some true, some "2024-01-01T11:53:20.000Z"⟩

/-- An update body for user `name` whose location was captured at `ts`. -/
def updateAt (name : String) (ts : String) : UpdateBody :=
  ⟨some name, some ⟨.num 17, .num 78, .num 5, .str "Campus", .str ts⟩, .undefined⟩

/-- Bob registers, then reports an 08:00 sample and after it a 09:00 sample. -/
def bobStore : Store :=
  (submitLocation refSchema refDate noonClock
    (submitLocation refSchema refDate noonClock
      (registerUser refSchema refDate noonClock emptyStore (registration "Bob")).1
      (updateAt "Bob" "2024-01-01T08:00:00.000Z")).1
    (updateAt "Bob" "2024-01-01T09:00:00.000Z")).1

/-- A cached sample captured at `ts`. -/
def cached (ts : String) : PendingSample :=
  ⟨.num 17, .num 78, .num 5, ts, "live-tracking-3s", "Campus", ts⟩

/-- A hook state whose queue and stored array both hold `q`. -/
def queued (q : List PendingSample) : Tracker := ⟨q, q, none⟩

/-- A world with an empty server and no traffic yet. -/
def freshWorld : World := ⟨emptyStore, [], []⟩

/-- A network that refuses the first request and delivers every later one. -/
def firstRefused : Nat → NetEvent := fun k => if k = 0 then .refused else .delivered

/-- A network that delivers the first request and refuses every later one. -/
def firstDeliveredOnly : Nat → NetEvent := fun k => if k = 0 then .delivered else .refused

/-- A network that delivers every request. -/
def allDelivered : Nat → NetEvent := fun _ => .delivered

/-- The number of rows of the location history that carry the sample's
coordinates and capture time. -/
def historyCount (db : Store) (x : PendingSample) : Nat :=
  (db.locations.filter (fun l => decide (l.latitude = x.latitude ∧ l.longitude = x.longitude ∧
    l.recorded_at = x.timestamp))).length

/-- The samples of a drain starting at request number `base` that reach the
`/api/location` handler, in order. -/
def handledSamples (net : Nat → NetEvent) (base : Nat) : List PendingSample → List PendingSample
  | [] => []
  | x :: xs =>
    if net base = .delivered ∨ net base = .responseLost then
      x :: handledSamples net (base + 1) xs
    else handledSamples net (base + 1) xs

/-- A world whose server knows Bob and has no location yet. -/
def bobWorld : World :=
  ⟨(registerUser refSchema refDate noonClock emptyStore (registration "Bob")).1, [], []⟩

/-- The hook state after a capture of 08:00 was cached offline at noon. -/
def offlineTracker : Tracker :=
  cacheLocationForOffline refDate noon (queued [])
    ⟨.num 17, .num 78, .num 5, "2024-01-01T08:00:00.000Z", "live-tracking-3s"⟩ "Campus"

/-- The sample `offlineTracker` holds. -/
def offlineSample : PendingSample :=
  ⟨.num 17, .num 78, .num 5, "2024-01-01T08:00:00.000Z", "live-tracking-3s", "Campus",
    "2024-01-01T12:00:00.000Z"⟩

/-- The store after Alice registered. -/
def aliceStore : Store :=
  (registerUser refSchema refDate noonClock emptyStore (registration "Alice")).1

/-- The store after Alice registered and was deactivated. -/
def aliceGone : Store := (deactivateUser aliceStore "Alice").1

/-- A registration body that asks for an inactive user last updated in 2020. -/
def inactiveRegistration : RegisterBody :=
  ⟨some "Alice", none, some false, some "2020-01-01T00:00:00.000Z"⟩

/-- The instant 2023-11-14T00:00:00.000Z. -/
def midnight : Instant := ⟨1699920000000, by decide⟩

/-- An engine fallback that reads the date-only form `2023-11-14` as midnight
UTC and nothing else. -/
def dateOnlyEngine : String → Option Instant :=
  fun s => if s = "2023-11-14" then some midnight else none

/-- The instant 2024-01-01T12:00:05.000Z. -/
def later : Instant := ⟨1704110405000, by decide⟩

/-- An admin principal named `admin`. -/
def rootAdmin : AdminUser := ⟨some "admin"⟩

/-- The claims of the token `/api/admin/login` signs, `{ username, role }`,
read as `req.adminUser`: they carry no `name`. -/
def tokenClaims : AdminUser := ⟨none⟩

/-- A verifier that knows one token, of the principal `admin`. -/
def oneToken : String → Option String :=
  fun t => if t = "valid-token" then some "admin" else none

/-- An update of Bob's location captured at 08:00 and sent three seconds
later. -/
def bobUpdate : UpdateBody :=
  ⟨some "Bob", some ⟨.num 17, .num 78, .num 5, .str "Campus", .str "2024-01-01T08:00:00.000Z"⟩,
    .str "2024-01-01T08:00:03.000Z"⟩

/-- An update of Bob's location with coordinates outside the valid ranges. -/
def farUpdate : UpdateBody :=
  ⟨some "Bob", some ⟨.num 123, .num 500, .num 5, .str "Nowhere", .str "2024-01-01T08:00:00.000Z"⟩,
    .undefined⟩

/-- Bob's row in `bobStore`. -/
def bobRow : UserRow :=
  ⟨"Bob", "1704110000000", some true, "2024-01-01T12:00:00.000Z", "2024-01-01T12:00:00.000Z",
    some false, none, none, none, none⟩

/-- The store `bobStore` after Alice registered and was deactivated. -/
def bobAndAliceGone : Store :=
  (deactivateUser (registerUser refSchema refDate noonClock bobStore (registration "Alice")).1
    "Alice").1

/-- An update of Bob's location on the equator. -/
def equatorUpdate : UpdateBody :=
  ⟨some "Bob", some ⟨.num 0, .num 78, .num 5, .str "Equator", .str "2024-01-01T08:00:00.000Z"⟩,
    .undefined⟩

/-- The store after Bob registered and reported a sample on the equator. -/
def equatorStore : Store :=
  (submitLocation refSchema refDate noonClock bobWorld.server equatorUpdate).1

/-- An update as the background path of the user page sends it: the location
timestamp is the number `position.timestamp`, here 2024-01-01T08:00:00.000Z. -/
def backgroundUpdate : UpdateBody :=
  ⟨some "Bob",
    some ⟨.num 17, .num 78, .num 5, .str "Background tracking", .num 1704096000000⟩,
    .str "2024-01-01T08:00:03.000Z"⟩

/-- A capture of 08:00 as `updateLocation` builds it. -/
def capture : NewLocation :=
  ⟨.num 17, .num 78, .num 5, "2024-01-01T08:00:00.000Z", "live-tracking-3s"⟩

/-- A runtime conversion that reads no string and no object as a number. -/
def numbersOnly : JsVal → Option ℚ := fun _ => none

/-! ## The reference runtime reads back what it writes -/

theorem dayFromYear_succ (y : Int) :
    dayFromYear (y + 1) = dayFromYear y + 365 + inLeapYear y := by
  unfold dayFromYear inLeapYear
  split_ifs <;> omega

theorem yearFromDay_spec (day : Int) :
    dayFromYear (yearFromDay day) ≤ day ∧ day < dayFromYear (yearFromDay day + 1) := by
  unfold yearFromDay
  simp only
  generalize hy : 1970 + day * 400 / 146097 = y0
  have e1 : dayFromYear (y0 - 1) ≤ day := by
    subst hy; unfold dayFromYear; omega
  have e2 : day < dayFromYear (y0 + 1 + 1) := by
    subst hy; unfold dayFromYear; omega
  have e3 : y0 - 1 + 1 = y0 := by omega
  split_ifs with h1 h2
  · rw [e3]; exact ⟨e1, h1⟩
  · exact ⟨h2, e2⟩
  · exact ⟨not_lt.mp h1, not_le.mp h2⟩

theorem inLeapYear_le (y : Int) : inLeapYear y ≤ 1 := by
  unfold inLeapYear; split_ifs <;> omega

theorem splitMonth_spec (lens : List Nat) (hl : ∀ l ∈ lens, l ≤ 31) :
    ∀ d, d < lens.sum →
      (splitMonth lens d).1 < lens.length ∧ (splitMonth lens d).2 < 31 ∧
        daysBeforeMonth lens (splitMonth lens d).1 + (splitMonth lens d).2 = d := by
  induction lens with
  | nil => intro d hd; simp at hd
  | cons len rest ih =>
    intro d hd
    have hlen : len ≤ 31 := hl len (List.mem_cons_self _ _)
    have hrest : ∀ l ∈ rest, l ≤ 31 := fun l h => hl l (List.mem_cons_of_mem _ h)
    simp only [List.sum_cons] at hd
    unfold splitMonth
    by_cases h : d < len
    · simp only [if_pos h, daysBeforeMonth, List.take_zero, List.sum_nil, List.length_cons]
      omega
    · obtain ⟨h1, h2, h3⟩ := ih hrest (d - len) (by omega)
      simp only [if_neg h, daysBeforeMonth, List.take_succ_cons, List.sum_cons, List.length_cons]
      simp only [daysBeforeMonth] at h3
      omega

theorem digitVal_digitChar (n : Nat) : digitVal (digitChar n) = some (n % 10) := by
  have h : n % 10 < 10 := Nat.mod_lt _ (by decide)
  generalize hk : n % 10 = k at h
  unfold digitChar
  rw [hk]
  interval_cases k <;> rfl

theorem digitChar_ne_sign (n : Nat) : digitChar n ≠ '+' ∧ digitChar n ≠ '-' := by
  have h : n % 10 < 10 := Nat.mod_lt _ (by decide)
  generalize hk : n % 10 = k at h
  unfold digitChar
  rw [hk]
  interval_cases k <;> decide

theorem digitsVal_pad2 (n : Nat) (h : n < 100) : digitsVal 0 (pad2 n) = some n := by
  simp only [pad2, digitsVal, digitVal_digitChar, Option.some_bind, Option.some.injEq]
  omega

theorem digitsVal_pad3 (n : Nat) (h : n < 1000) : digitsVal 0 (pad3 n) = some n := by
  simp only [pad3, digitsVal, digitVal_digitChar, Option.some_bind, Option.some.injEq]
  omega

theorem digitsVal_pad4 (n : Nat) (h : n < 10000) : digitsVal 0 (pad4 n) = some n := by
  simp only [pad4, pad3, digitsVal, digitVal_digitChar, Option.some_bind, Option.some.injEq]
  omega

theorem digitsVal_pad6 (n : Nat) (h : n < 1000000) : digitsVal 0 (pad6 n) = some n := by
  simp only [pad6, pad4, pad3, digitsVal, digitVal_digitChar, Option.some_bind, Option.some.injEq]
  omega

theorem monthLengths_sum (leap : Nat) : (monthLengths leap).sum = 365 + leap := by
  simp only [monthLengths, List.sum_cons, List.sum_nil]
  omega

theorem monthLengths_le (leap : Nat) (h : leap ≤ 1) : ∀ l ∈ monthLengths leap, l ≤ 31 := by
  intro l hl
  simp only [monthLengths, List.mem_cons, List.mem_singleton, List.not_mem_nil, or_false] at hl
  omega

theorem yearFromDay_near (day : Int) :
    1970 + day * 400 / 146097 - 1 ≤ yearFromDay day ∧
      yearFromDay day ≤ 1970 + day * 400 / 146097 + 1 := by
  unfold yearFromDay
  simp only
  split_ifs <;> omega

theorem isoTail_digits (y : Int) (m d h n s f : Nat) (hm : m < 100) (hd : d < 100)
    (hh : h < 100) (hn : n < 100) (hs : s < 100) (hf : f < 1000) :
    isoTail y ['-', digitChar (m / 10), digitChar m, '-', digitChar (d / 10), digitChar d, 'T',
        digitChar (h / 10), digitChar h, ':', digitChar (n / 10), digitChar n, ':',
        digitChar (s / 10), digitChar s, '.', digitChar (f / 100), digitChar (f / 10),
        digitChar f, 'Z'] =
      some ((dayFromYear y +
          ((daysBeforeMonth (monthLengths (inLeapYear y)) (m - 1) + d : Nat) : Int) - 1) * 86400000
        + ((h * 3600000 + n * 60000 + s * 1000 + f : Nat) : Int)) := by
  have em := digitsVal_pad2 m hm
  have ed := digitsVal_pad2 d hd
  have eh := digitsVal_pad2 h hh
  have en := digitsVal_pad2 n hn
  have es := digitsVal_pad2 s hs
  have ef := digitsVal_pad3 f hf
  simp only [pad2, pad3] at em ed eh en es ef
  simp only [isoTail, and_self, if_true, em, ed, eh, en, es, ef, Option.some_bind]

theorem isoCandidate_isoChars (ms : Int)
    (hr : -8640000000000000 ≤ ms ∧ ms ≤ 8640000000000000) :
    isoCandidate (isoChars ms) = some ms := by
  obtain ⟨hy1, hy2⟩ := yearFromDay_spec (ms / 86400000)
  obtain ⟨hn1, hn2⟩ := yearFromDay_near (ms / 86400000)
  have hsucc := dayFromYear_succ (yearFromDay (ms / 86400000))
  have hleap := inLeapYear_le (yearFromDay (ms / 86400000))
  have hsum := monthLengths_sum (inLeapYear (yearFromDay (ms / 86400000)))
  obtain ⟨hm1, hm2, hm3⟩ := splitMonth_spec _ (monthLengths_le _ hleap)
    (ms / 86400000 - dayFromYear (yearFromDay (ms / 86400000))).toNat (by omega)
  have hlen : (monthLengths (inLeapYear (yearFromDay (ms / 86400000)))).length = 12 := rfl
  unfold isoChars
  simp only
  generalize yearFromDay (ms / 86400000) = y at *
  generalize splitMonth (monthLengths (inLeapYear y)) (ms / 86400000 - dayFromYear y).toNat = md at *
  have ht := isoTail_digits y (md.1 + 1) (md.2 + 1) ((ms % 86400000).toNat / 3600000)
    ((ms % 86400000).toNat / 60000 % 60) ((ms % 86400000).toNat / 1000 % 60)
    ((ms % 86400000).toNat % 1000) (by omega) (by omega) (by omega) (by omega) (by omega)
    (by omega)
  unfold yearChars
  by_cases hy : 0 ≤ y ∧ y ≤ 9999
  · have e4 := digitsVal_pad4 y.toNat (by omega)
    simp only [pad4, pad3] at e4
    have hsign := fun n => digitChar_ne_sign n
    simp only [if_pos hy, pad4, pad3, pad2, List.cons_append, List.nil_append, isoCandidate,
      (hsign _).1, (hsign _).2, or_self, if_false, e4, Option.some_bind]
    have hcast : ((y.toNat : Nat) : Int) = y := Int.toNat_of_nonneg hy.1
    rw [hcast, ht]
    simp only [Nat.add_sub_cancel, Option.some.injEq]
    omega
  · have e6 := digitsVal_pad6 y.natAbs (by omega)
    simp only [pad6, pad4, pad3] at e6
    by_cases hneg : y < 0
    · simp only [if_neg hy, if_pos hneg, pad6, pad4, pad3, pad2, List.cons_append,
        List.nil_append, isoCandidate, or_true, if_true, e6, Option.some_bind]
      have hcast : -((y.natAbs : Nat) : Int) = y := by omega
      rw [hcast, ht]
      simp only [Nat.add_sub_cancel, Option.some.injEq]
      omega
    · have hne : ('+' : Char) ≠ '-' := by decide
      simp only [if_neg hy, if_neg hneg, pad6, pad4, pad3, pad2, List.cons_append,
        List.nil_append, isoCandidate, true_or, if_true, hne, if_false, e6, Option.some_bind]
      have hcast : ((y.natAbs : Nat) : Int) = y := by omega
      rw [hcast, ht]
      simp only [Nat.add_sub_cancel, Option.some.injEq]
      omega

theorem parseCanonical_isoChars (t : Instant) :
    parseCanonical (String.mk (isoChars t.ms)) = some t := by
  unfold parseCanonical
  simp only [isoCandidate_isoChars t.ms t.inRange, dif_pos t.inRange, if_true]

theorem jsDate_parse_toISOString (legacy : String → Option Instant) (t : Instant) :
    (jsDate legacy).parse ((jsDate legacy).toISOString t) = some t := by
  simp only [jsDate, parseCanonical_isoChars]

theorem jsDate_toISOString_ne (legacy : String → Option Instant) (t : Instant) :
    (jsDate legacy).toISOString t ≠ "" := by
  intro h
  have := congrArg String.length h
  simp [jsDate, isoChars, String.length] at this

/-! ## The drain loop -/

theorem fetchLocation_world (net : Nat → NetEvent) (w : World) (x : PendingSample) :
    (fetchLocation net w x).2 =
      ⟨w.server, w.received ++ handledSamples net w.requests.length [x], w.requests ++ [x]⟩ := by
  unfold fetchLocation
  cases h : net w.requests.length <;> simp [handledSamples, postLocation, h]

theorem fetchLocation_result (net : Nat → NetEvent) (w : World) (x : PendingSample) :
    ((fetchLocation net w x).1 = .ok) ↔ sendOk net w.requests.length = true := by
  unfold fetchLocation sendOk
  cases h : net w.requests.length <;> simp [postLocation]

theorem syncLoop_cons (net : Nat → NetEvent) (w : World) (x : PendingSample)
    (xs : List PendingSample) (s e : Nat) :
    syncLoop net w (x :: xs) s e =
      syncLoop net (fetchLocation net w x).2 xs
        (s + if sendOk net w.requests.length then 1 else 0)
        (e + if sendOk net w.requests.length then 0 else 1) := by
  have hr := fetchLocation_result net w x
  rw [syncLoop]
  cases hres : (fetchLocation net w x).1 <;>
    cases hok : sendOk net w.requests.length <;>
    simp_all
  all_goals
    rcases hf : fetchLocation net w x with ⟨r, w1⟩
    rw [hf] at hres
    simp only at hres
    subst hres
    rfl

theorem okCount_le (net : Nat → NetEvent) : ∀ n base, okCount net base n ≤ n := by
  intro n
  induction n with
  | zero => intro base; simp [okCount]
  | succ n ih =>
    intro base
    have := ih (base + 1)
    simp only [okCount]
    split_ifs <;> omega

theorem syncLoop_spec (net : Nat → NetEvent) :
    ∀ (q : List PendingSample) (w : World) (s e : Nat),
      (syncLoop net w q s e).1 =
          ⟨w.server, w.received ++ handledSamples net w.requests.length q, w.requests ++ q⟩ ∧
        (syncLoop net w q s e).2.1 = s + okCount net w.requests.length q.length ∧
        (syncLoop net w q s e).2.2 = e + (q.length - okCount net w.requests.length q.length) := by
  intro q
  induction q with
  | nil => intro w s e; simp [syncLoop, handledSamples, okCount]
  | cons x xs ih =>
    intro w s e
    rw [syncLoop_cons]
    obtain ⟨h1, h2, h3⟩ := ih (fetchLocation net w x).2
      (s + if sendOk net w.requests.length then 1 else 0)
      (e + if sendOk net w.requests.length then 0 else 1)
    have hle := okCount_le net xs.length (w.requests.length + 1)
    simp only [fetchLocation_world, List.length_append, List.length_singleton] at h1 h2 h3 ⊢
    rw [h1, h2, h3]
    simp only [List.length_cons, okCount, handledSamples, List.append_assoc,
      List.singleton_append]
    refine ⟨?_, ?_, ?_⟩
    · split_ifs <;> simp
    · split_ifs <;> omega
    · split_ifs <;> omega

theorem syncPendingLocations_spec (net : Nat → NetEvent) (w : World) (c : Tracker) :
    (syncPendingLocations net w c).world =
        ⟨w.server, w.received ++ handledSamples net w.requests.length c.pendingLocations,
          w.requests ++ c.pendingLocations⟩ ∧
      (syncPendingLocations net w c).tracker.pendingLocations =
        c.pendingLocations.drop (okCount net w.requests.length c.pendingLocations.length) ∧
      (syncPendingLocations net w c).tracker.stored =
        c.stored.drop (okCount net w.requests.length c.pendingLocations.length) := by
  obtain ⟨h1, h2, h3⟩ := syncLoop_spec net c.pendingLocations w 0 0
  unfold syncPendingLocations
  by_cases h0 : c.pendingLocations.length = 0
  · have hnil : c.pendingLocations = [] := List.length_eq_zero.mp h0
    simp [hnil, handledSamples, okCount]
  · simp only [if_neg h0, h1, h2, h3, Nat.zero_add]
    by_cases hk : okCount net w.requests.length c.pendingLocations.length > 0
    · simp only [if_pos hk]
      split_ifs <;> simp
    · have hz : okCount net w.requests.length c.pendingLocations.length = 0 := by omega
      simp only [hz, gt_iff_lt, lt_self_iff_false, if_false, List.drop_zero]
      split_ifs <;> simp

theorem mem_handledSamples (net : Nat → NetEvent) :
    ∀ (q : List PendingSample) (base i : Nat) (x : PendingSample),
      q.get? i = some x → sendOk net (base + i) = true → x ∈ handledSamples net base q := by
  intro q
  induction q with
  | nil => intro base i x h; simp at h
  | cons y ys ih =>
    intro base i x h hok
    cases i with
    | zero =>
      simp only [List.get?_cons_zero, Option.some.injEq] at h
      simp only [sendOk, Nat.add_zero, decide_eq_true_eq] at hok
      simp [handledSamples, hok, h]
    | succ j =>
      simp only [List.get?_cons_succ] at h
      have hj : sendOk net (base + 1 + j) = true := by
        rw [Nat.add_assoc, Nat.add_comm 1 j]; exact hok
      have := ih (base + 1) j x h hj
      simp only [handledSamples]
      split_ifs <;> simp [this]

/-! ## C1: the location `GET /api/users` embeds -/

/-- C1 (code defect): the claim asks for the sample with the maximum
`recordedAt`. The handler embeds `user.locations[0]`, the first location row
the store returns for the user. Bob reports an 08:00 sample and then a 09:00
sample; the view carries the 08:00 sample although the 09:00 sample has the
maximum `recordedAt`. -/
theorem listActiveUsers_embeds_first_row :
    (listActiveUsers refDate bobStore).map (fun v => (v.name, v.location.map fun l => l.timestamp))
        = [("Bob", some "2024-01-01T08:00:00.000Z")] ∧
      (latestByRecordedAt refDate bobStore.locations).map (fun l => (l.user_name, l.recorded_at))
        = some ("Bob", "2024-01-01T09:00:00.000Z") := by
  decide

/-! ## C2 to C4: the drain of the offline queue -/

/-- C2 (code defect): the claim asks that exactly the samples whose send
failed stay queued. The drain slices `successCount` entries off the front.
With the 08:00 sample refused and the 09:00 sample delivered, both lists end
up holding the 09:00 sample, which was sent, and the 08:00 sample, which
failed, is gone. -/
theorem syncPendingLocations_drops_failed_sample :
    (syncPendingLocations firstRefused freshWorld
        (queued [cached "2024-01-01T08:00:00.000Z", cached "2024-01-01T09:00:00.000Z"])).tracker
        = ⟨[cached "2024-01-01T09:00:00.000Z"], [cached "2024-01-01T09:00:00.000Z"],
            some ⟨"warning", "1 locations failed to sync and will be retried later."⟩⟩ ∧
      failedSamples firstRefused 0
          [cached "2024-01-01T08:00:00.000Z", cached "2024-01-01T09:00:00.000Z"]
        = [cached "2024-01-01T08:00:00.000Z"] := by
  decide

/-- C3 (as stated, refuted): a sample cached offline is drained with its send
succeeding, and afterwards the location history holds it zero times, not
once: the drain posts to `/api/location`, which stores nothing. -/
theorem drained_sample_not_in_history :
    offlineTracker.pendingLocations = [offlineSample] ∧
      sendOk allDelivered bobWorld.requests.length = true ∧
      historyCount (syncPendingLocations allDelivered bobWorld offlineTracker).world.server
        offlineSample = 0 := by
  decide

/-- C3 (amended): a drain leaves the server's tables as they were, so every
sample is in the location history exactly as often as before the drain; the
samples the network hands to the `/api/location` handler are logged there in
order, and a queued sample whose send succeeds is among them. -/
theorem drain_leaves_history_unchanged (net : Nat → NetEvent) (w : World) (c : Tracker) :
    (syncPendingLocations net w c).world.server = w.server ∧
      (∀ x, historyCount (syncPendingLocations net w c).world.server x = historyCount w.server x) ∧
      (syncPendingLocations net w c).world.received =
        w.received ++ handledSamples net w.requests.length c.pendingLocations ∧
      (∀ i x, c.pendingLocations.get? i = some x → sendOk net (w.requests.length + i) = true →
        x ∈ (syncPendingLocations net w c).world.received) := by
  obtain ⟨h1, -, -⟩ := syncPendingLocations_spec net w c
  rw [h1]
  refine ⟨rfl, fun _ => rfl, rfl, ?_⟩
  intro i x hx hok
  exact List.mem_append_right _ (mem_handledSamples net _ _ _ _ hx hok)

/-- C4 (as stated, refuted): the drain returns no counts. With the first send
delivered and the second refused the promise resolves to `undefined`, and the
status left behind names the one failure only. -/
theorem syncPendingLocations_returns_no_counts :
    (syncPendingLocations firstDeliveredOnly freshWorld
        (queued [cached "2024-01-01T08:00:00.000Z", cached "2024-01-01T09:00:00.000Z"])).returned
        = JsVal.undefined ∧
      (syncPendingLocations firstDeliveredOnly freshWorld
        (queued [cached "2024-01-01T08:00:00.000Z", cached "2024-01-01T09:00:00.000Z"])).tracker.status
        = some ⟨"warning", "1 locations failed to sync and will be retried later."⟩ := by
  decide

/-- C4 (amended): a drain over `n` queued samples issues exactly the queued
samples as requests, each once and in queue order, whatever the outcome of the
earlier sends; its counters end with `successCount + errorCount = n`; it
resolves to `undefined`, and the counts reach the caller through the status
only: the failure count when a send failed, otherwise the success count. -/
theorem syncPendingLocations_sends_each_once (net : Nat → NetEvent) (w : World) (c : Tracker) :
    (syncPendingLocations net w c).world.requests = w.requests ++ c.pendingLocations ∧
      (syncLoop net w c.pendingLocations 0 0).2.1 + (syncLoop net w c.pendingLocations 0 0).2.2
        = c.pendingLocations.length ∧
      (syncLoop net w c.pendingLocations 0 0).2.1
        = okCount net w.requests.length c.pendingLocations.length ∧
      (syncPendingLocations net w c).returned = JsVal.undefined ∧
      (syncPendingLocations net w c).tracker.status =
        (if c.pendingLocations.length = 0 then c.status
        else if 0 < (syncLoop net w c.pendingLocations 0 0).2.2 then
          some ⟨"warning", toString (syncLoop net w c.pendingLocations 0 0).2.2 ++
            " locations failed to sync and will be retried later."⟩
        else
          some ⟨"success", "Synced " ++ toString (syncLoop net w c.pendingLocations 0 0).2.1 ++
            " locations successfully!"⟩) := by
  obtain ⟨h1, -, -⟩ := syncPendingLocations_spec net w c
  obtain ⟨-, h2, h3⟩ := syncLoop_spec net c.pendingLocations w 0 0
  have hle := okCount_le net c.pendingLocations.length w.requests.length
  refine ⟨by rw [h1], by omega, by omega, ?_, ?_⟩
  · unfold syncPendingLocations
    split_ifs <;> rfl
  · unfold syncPendingLocations
    by_cases h0 : c.pendingLocations.length = 0
    · simp only [if_pos h0]
    · simp only [if_neg h0]
      by_cases he : 0 < (syncLoop net w c.pendingLocations 0 0).2.2
      · simp only [gt_iff_lt, if_pos he]
      · have hs : (syncLoop net w c.pendingLocations 0 0).2.1 > 0 := by omega
        simp only [gt_iff_lt, if_neg he, if_pos hs]

/-! ## C5 to C7: the user registry -/

theorem filter_name_nil (l : List UserRow) (name : String) (h : ∀ v ∈ l, v.name ≠ name) :
    l.filter (fun v => decide (v.name = name)) = [] := by
  rw [List.filter_eq_nil_iff]
  intro v hv
  simpa using h v hv

theorem filter_name_singleton (l : List UserRow) (u : UserRow)
    (huniq : (l.map fun v => v.name).Nodup) (hu : u ∈ l) :
    l.filter (fun v => decide (v.name = u.name)) = [u] := by
  induction l with
  | nil => simp at hu
  | cons v vs ih =>
    simp only [List.map_cons, List.nodup_cons, List.mem_map, not_exists, not_and] at huniq
    obtain ⟨hv, hvs⟩ := huniq
    rcases List.mem_cons.mp hu with h | h
    · subst h
      have hnil := filter_name_nil vs u.name (fun w hw hname => hv w hw hname)
      simp [List.filter_cons, hnil]
    · have hne : v.name ≠ u.name := fun hname => hv u h hname.symm
      simp [List.filter_cons, hne, ih hvs h]

theorem filter_name_of_single_none (l : List UserRow) (name : String)
    (huniq : (l.map fun v => v.name).Nodup)
    (h : single (l.filter (fun v => decide (v.name = name))) = none) :
    l.filter (fun v => decide (v.name = name)) = [] := by
  by_contra hne
  obtain ⟨u, hu⟩ := List.exists_mem_of_ne_nil _ hne
  obtain ⟨hul, hun⟩ := List.mem_filter.mp hu
  have hname : u.name = name := by simpa using hun
  have := filter_name_singleton l u huniq hul
  rw [hname] at this
  rw [this] at h
  simp [single] at h

theorem strTruthy_some (name : String) (h : name ≠ "") : strTruthy (some name) = true := by
  simp [strTruthy, h]

theorem wellFormed_emptyStore : emptyStore.WellFormed := by
  decide

theorem wellFormed_of_names (db db1 : Store)
    (h : (db1.users.map fun v => v.name) = db.users.map fun v => v.name)
    (hwf : db.WellFormed) : db1.WellFormed := by
  refine ⟨h ▸ hwf.1, ?_⟩
  intro v hv
  have hmem : v.name ∈ db1.users.map fun v => v.name := List.mem_map.mpr ⟨v, hv, rfl⟩
  rw [h] at hmem
  obtain ⟨w, hw, hwn⟩ := List.mem_map.mp hmem
  exact hwn ▸ hwf.2 w hw

theorem registerUser_wellFormed (schema : Schema) (rt : DateRuntime) (clock : Clock) (db : Store)
    (body : RegisterBody) (hwf : db.WellFormed) :
    (registerUser schema rt clock db body).1.WellFormed := by
  unfold registerUser
  by_cases ht : strTruthy body.name = true
  · simp only [ht, if_true]
    cases hs : single (usersNamed db (body.name.getD "")) with
    | some v => exact hwf
    | none =>
      simp only
      by_cases hok : schema.userInsertOk db.users
          (newUserRow schema rt clock body (body.name.getD "")) = true
      · simp only [hok, if_true]
        have hnil := filter_name_of_single_none db.users _ hwf.1 hs
        have hfree : ∀ v ∈ db.users, v.name ≠ body.name.getD "" := by
          intro v hv hn
          have : v ∈ db.users.filter (fun w => decide (w.name = body.name.getD "")) :=
            List.mem_filter.mpr ⟨hv, by simpa using hn⟩
          rw [hnil] at this
          simp at this
        have hne : body.name.getD "" ≠ "" := by
          cases hb : body.name with
          | none => simp [hb, strTruthy] at ht
          | some n => simpa [hb, strTruthy] using ht
        refine ⟨?_, ?_⟩
        · simp only [List.map_append, List.map_cons, List.map_nil]
          refine List.Nodup.append hwf.1 (List.nodup_singleton _) ?_
          intro n hn hn2
          obtain ⟨v, hv, rfl⟩ := List.mem_map.mp hn
          simp only [List.mem_singleton] at hn2
          exact hfree v hv hn2
        · intro v hv
          rcases List.mem_append.mp hv with h | h
          · exact hwf.2 v h
          · simp only [List.mem_singleton] at h
            subst h
            exact hne
      · simp only [hok]
        exact hwf
  · simp only [ht]
    exact hwf

theorem deactivateUser_wellFormed (db : Store) (name : String) (hwf : db.WellFormed) :
    (deactivateUser db name).1.WellFormed := by
  unfold deactivateUser
  simp only
  split
  · refine wellFormed_of_names db _ ?_ hwf
    simp only [List.map_map]
    refine List.map_congr_left ?_
    intro v _
    simp only [Function.comp]
    split_ifs <;> rfl
  · exact hwf

theorem submitLocation_wellFormed (schema : Schema) (rt : DateRuntime) (clock : Clock)
    (db : Store) (body : UpdateBody) (hwf : db.WellFormed) :
    (submitLocation schema rt clock db body).1.WellFormed := by
  have hmap : ∀ (ts : String) (locs : List LocationRow), Store.WellFormed
      { users := db.users.map (fun u =>
          if u.name = body.name.getD "" then { u with last_updated := ts } else u),
        locations := locs } := by
    intro ts locs
    refine wellFormed_of_names db _ ?_ hwf
    simp only [List.map_map]
    refine List.map_congr_left ?_
    intro v _
    simp only [Function.comp]
    split_ifs <;> rfl
  unfold submitLocation
  split
  · simp only
    split
    · exact hwf
    · split_ifs
      · exact hmap _ _
      · exact hmap _ _
  · exact hwf

/-- C5: in a store that keeps the invariant of the users table, a
registration whose name an active user row already carries is answered with
409 and leaves the store as it was (the row's activity is not consulted); the
name is matched by string equality, so a registration whose name no row
carries exactly, for instance in another letter case, is not answered with
409. -/
theorem registerUser_conflict (schema : Schema) (rt : DateRuntime) (clock : Clock) (db : Store)
    (body : RegisterBody) (name : String) (u : UserRow)
    (hwf : db.WellFormed) (hname : body.name = some name)
    (hu : u ∈ db.users) (hun : u.name = name) (_hact : u.is_active = some true) :
    registerUser schema rt clock db body =
        (db, ⟨409, .error "User with this name already exists"⟩) ∧
      ∀ (body2 : RegisterBody) (name2 : String), body2.name = some name2 →
        (∀ v ∈ db.users, v.name ≠ name2) →
        (registerUser schema rt clock db body2).2.status ≠ 409 := by
  constructor
  · have hs := filter_name_singleton db.users u hwf.1 hu
    have hne : name ≠ "" := hun ▸ hwf.2 u hu
    rw [hun] at hs
    simp [registerUser, hname, strTruthy_some name hne, usersNamed, hs, single]
  · intro body2 name2 h2 hfree
    have hs := filter_name_nil db.users name2 hfree
    unfold registerUser
    simp only [h2, usersNamed, hs, single, Option.getD_some]
    split_ifs <;> simp

/-- C5, at an instance: Alice is registered and active; a second registration
of "Alice" is answered with 409 and changes nothing, one of "alice" is not
answered with 409. -/
theorem registerUser_conflict_witness :
    aliceStore.WellFormed ∧
      (∃ u ∈ aliceStore.users, u.name = "Alice" ∧ u.is_active = some true) ∧
      registerUser refSchema refDate noonClock aliceStore (registration "Alice") =
        (aliceStore, ⟨409, .error "User with this name already exists"⟩) ∧
      (registerUser refSchema refDate noonClock aliceStore (registration "alice")).2.status
        ≠ 409 :=
  have h := registerUser_conflict refSchema refDate noonClock aliceStore (registration "Alice")
    "Alice"
    ⟨"Alice", "1704110000000", some true, "2024-01-01T11:53:20.000Z", "2024-01-01T12:00:00.000Z",
      some false, none, none, none, none⟩
    (by decide) rfl (by decide) rfl rfl
  ⟨by decide, by decide, h.1, h.2 (registration "alice") "alice" rfl (by decide)⟩

/-- C6 (as stated, refuted): Alice registers and is deactivated, both with
success; the second registration of "Alice" is answered with 409 and the
store, which has no active user, stays as it was. -/
theorem reregister_after_deactivate_refused :
    (registerUser refSchema refDate noonClock emptyStore (registration "Alice")).2.status = 200 ∧
      (deactivateUser aliceStore "Alice").2.status = 200 ∧
      aliceGone.users.filter (fun u => decide (u.is_active = some true)) = [] ∧
      registerUser refSchema refDate noonClock aliceGone (registration "Alice") =
        (aliceGone, ⟨409, .error "User with this name already exists"⟩) := by
  decide

/-- C6 (amended): uniqueness of names holds among all user rows, active or
not. In a store that keeps the invariant of the users table, after a
successful registration of a name and the deactivation of that name, which
succeeds, a second registration of the name is answered with 409 and changes
nothing. -/
theorem registerUser_after_deactivate (schema : Schema) (rt : DateRuntime)
    (clock1 clock2 : Clock) (db : Store) (body1 body2 : RegisterBody) (name : String)
    (hwf : db.WellFormed) (h1 : body1.name = some name) (h2 : body2.name = some name)
    (hreg : (registerUser schema rt clock1 db body1).2.status = 200) :
    (deactivateUser (registerUser schema rt clock1 db body1).1 name).2.status = 200 ∧
      registerUser schema rt clock2
          (deactivateUser (registerUser schema rt clock1 db body1).1 name).1 body2 =
        ((deactivateUser (registerUser schema rt clock1 db body1).1 name).1,
          ⟨409, .error "User with this name already exists"⟩) := by
  have hne : strTruthy (some name) = true := by
    by_contra hf
    simp [registerUser, h1, hf] at hreg
  have hnone : single (usersNamed db name) = none := by
    cases hs : single (usersNamed db name) with
    | none => rfl
    | some v => simp [registerUser, h1, hne, hs] at hreg
  have hok : schema.userInsertOk db.users (newUserRow schema rt clock1 body1 name) = true := by
    by_contra hf
    simp [registerUser, h1, hne, hnone, hf] at hreg
  have hnil := filter_name_of_single_none db.users name hwf.1 hnone
  have hdb1 : (registerUser schema rt clock1 db body1).1 =
      { db with users := db.users ++ [newUserRow schema rt clock1 body1 name] } := by
    simp [registerUser, h1, hne, hnone, hok]
  rw [hdb1]
  have hrow : (newUserRow schema rt clock1 body1 name).name = name := rfl
  have hf2 : ∀ locs, usersNamed
      { users := (db.users ++ [newUserRow schema rt clock1 body1 name]).map (fun u =>
          if u.name = name then { u with is_active := some false, is_tracking := some false }
          else u), locations := locs } name =
      [{ newUserRow schema rt clock1 body1 name with
          is_active := some false, is_tracking := some false }] := by
    intro locs
    simp only [usersNamed, List.map_append, List.filter_append, List.map_cons, List.map_nil,
      hrow, if_true]
    have : (db.users.map (fun u =>
        if u.name = name then { u with is_active := some false, is_tracking := some false }
        else u)).filter (fun v => decide (v.name = name)) = [] := by
      rw [List.filter_eq_nil_iff]
      intro v hv
      obtain ⟨w, hw, rfl⟩ := List.mem_map.mp hv
      have hwn : w.name ≠ name := by
        intro hwn
        have : w ∈ db.users.filter (fun v => decide (v.name = name)) :=
          List.mem_filter.mpr ⟨hw, by simpa using hwn⟩
        rw [hnil] at this
        simp at this
      simp [hwn]
    simp [this, List.filter_cons, hrow]
  constructor
  · simp only [deactivateUser, hf2, single]
  · simp only [registerUser, deactivateUser, single, h2, hne, Option.getD_some, hf2,
      if_true]

/-- C6 (amended), at an instance: Alice registers into the empty store. -/
theorem registerUser_after_deactivate_witness :
    (registerUser refSchema refDate noonClock emptyStore (registration "Alice")).2.status = 200 ∧
      registerUser refSchema refDate noonClock
          (deactivateUser
            (registerUser refSchema refDate noonClock emptyStore (registration "Alice")).1
            "Alice").1 (registration "Alice") =
        ((deactivateUser
            (registerUser refSchema refDate noonClock emptyStore (registration "Alice")).1
            "Alice").1, ⟨409, .error "User with this name already exists"⟩) :=
  ⟨by decide,
    (registerUser_after_deactivate refSchema refDate noonClock noonClock emptyStore
      (registration "Alice") (registration "Alice") "Alice" (by decide) rfl rfl (by decide)).2⟩

/-- C7 (as stated, refuted): a body that carries `isActive: false` and a
`lastUpdated` of 2020 creates a row that is inactive and last updated in 2020,
not active and updated now. -/
theorem registerUser_takes_body_fields :
    registerUser refSchema refDate noonClock emptyStore inactiveRegistration =
      (⟨[⟨"Alice", "1704110400000", some false, "2020-01-01T00:00:00.000Z",
          "2024-01-01T12:00:00.000Z", some false, none, none, none, none⟩], []⟩,
        ⟨200, .user ⟨"Alice", "1704110400000", some false, "2020-01-01T00:00:00.000Z",
          "2024-01-01T12:00:00.000Z", some false, none, none, none, none⟩⟩) ∧
      refDate.toISOString (noonClock 1) ≠ "2020-01-01T00:00:00.000Z" := by
  decide

/-- C7 (amended): for a body with a non-empty name that no user row carries,
when the table accepts the row, the handler answers 200 and appends one row:
`is_active` is the body's `isActive` if it has one and otherwise what the
store gives a field the insert leaves undefined, `last_updated` is the body's `lastUpdated` if non-empty and the
current instant otherwise, `id` is the body's `id` if non-empty and the
current epoch milliseconds otherwise, and `is_tracking`, which the handler
does not write, is the column default. -/
theorem registerUser_row (schema : Schema) (rt : DateRuntime) (clock : Clock) (db : Store)
    (body : RegisterBody) (name : String)
    (hname : body.name = some name) (hne : name ≠ "")
    (hfree : ∀ v ∈ db.users, v.name ≠ name)
    (hok : schema.userInsertOk db.users (newUserRow schema rt clock body name) = true) :
    ∃ row : UserRow,
      registerUser schema rt clock db body =
          (⟨db.users ++ [row], db.locations⟩, ⟨200, .user row⟩) ∧
        row.name = name ∧
        row.is_active = (match body.isActive with
          | some b => some b
          | none => schema.is_active_missing) ∧
        row.is_tracking = schema.is_tracking_default ∧
        row.last_updated = (match body.lastUpdated with
          | some s => if s ≠ "" then s else rt.toISOString (clock 1)
          | none => rt.toISOString (clock 1)) ∧
        row.id = (match body.id with
          | some s => if s ≠ "" then s else toString (clock 0).ms
          | none => toString (clock 0).ms) ∧
        row.created_at = rt.toISOString (clock 2) := by
  refine ⟨newUserRow schema rt clock body name, ?_, rfl, rfl, rfl, ?_, ?_, rfl⟩
  · have hs := filter_name_nil db.users name hfree
    simp [registerUser, hname, strTruthy_some name hne, usersNamed, hs, single, hok]
  · cases hb : body.lastUpdated with
    | none => simp [newUserRow, hb, strTruthy]
    | some s => by_cases hs : s = "" <;> simp [newUserRow, hb, strTruthy, hs]
  · cases hb : body.id with
    | none => simp [newUserRow, hb, strTruthy]
    | some s => by_cases hs : s = "" <;> simp [newUserRow, hb, strTruthy, hs]

/-- C7 (amended), at an instance: the body of `inactiveRegistration` on the
empty store. -/
theorem registerUser_row_witness :
    ∃ row : UserRow,
      registerUser refSchema refDate noonClock emptyStore inactiveRegistration =
          (⟨[row], []⟩, ⟨200, .user row⟩) ∧
        row.is_active = some false ∧ row.is_tracking = some false ∧
        row.last_updated = "2020-01-01T00:00:00.000Z" :=
  have ⟨row, h, _, ha, ht, hl, _, _⟩ := registerUser_row refSchema refDate noonClock emptyStore
    inactiveRegistration "Alice" rfl (by decide) (by decide) (by decide)
  ⟨row, h, ha, ht, hl⟩

/-! ## C8 to C10: the timestamp normaliser -/

/-- C8: a non-empty string that parses to the instant `t` is normalised to
`toISOString` of `t`, the canonical ISO-8601 UTC rendering of that same
instant; read back by a runtime that reads `toISOString t` as `t`, the result
denotes the instant the input denotes. -/
theorem normalizeTimestamp_valid (rt : DateRuntime) (now : Instant) (s : String) (t : Instant)
    (hs : s ≠ "") (hp : rt.parse s = some t) :
    normalizeTimestamp rt now (.str s) = rt.toISOString t ∧
      (rt.parse (rt.toISOString t) = some t →
        rt.parse (normalizeTimestamp rt now (.str s)) = rt.parse s) := by
  have h : normalizeTimestamp rt now (.str s) = rt.toISOString t := by
    simp [normalizeTimestamp, hs, hp]
  exact ⟨h, fun hb => by rw [h, hb, hp]⟩

/-- C8, at an instance: an engine that reads `2023-11-14` as midnight UTC
normalises it to `2023-11-14T00:00:00.000Z`, which denotes the same instant. -/
theorem normalizeTimestamp_valid_witness :
    (jsDate dateOnlyEngine).parse "2023-11-14" = some midnight ∧
      normalizeTimestamp (jsDate dateOnlyEngine) noon (.str "2023-11-14") =
        "2023-11-14T00:00:00.000Z" ∧
      (jsDate dateOnlyEngine).parse
          (normalizeTimestamp (jsDate dateOnlyEngine) noon (.str "2023-11-14")) =
        some midnight :=
  have h := normalizeTimestamp_valid (jsDate dateOnlyEngine) noon "2023-11-14" midnight
    (by decide) (by decide)
  ⟨by decide, h.1.trans (by decide), (h.2 (jsDate_parse_toISOString _ _)).trans (by decide)⟩

/-- C9: an input that is not a non-empty string parsing to a date (an empty
string, `null`, an absent field, a string that fails to parse, a value of
another type) is normalised to `toISOString` of the current instant; and for
every input the function returns `toISOString` of a valid instant, which a
runtime that reads back what it writes parses to that instant: the result is
never null and never unparseable. The function is total, so no input raises. -/
theorem normalizeTimestamp_fallback (rt : DateRuntime) (now : Instant) (v : JsVal)
    (hv : ∀ s, v = .str s → s = "" ∨ rt.parse s = none)
    (hback : ∀ t, rt.parse (rt.toISOString t) = some t) :
    normalizeTimestamp rt now v = rt.toISOString now ∧
      ∀ w : JsVal, ∃ t : Instant,
        normalizeTimestamp rt now w = rt.toISOString t ∧
          rt.parse (normalizeTimestamp rt now w) = some t := by
  constructor
  · cases v with
    | str s =>
      rcases hv s rfl with h | h
      · simp [normalizeTimestamp, h]
      · by_cases hs : s = "" <;> simp [normalizeTimestamp, hs, h]
    | _ => rfl
  · intro w
    have key : ∃ t : Instant, normalizeTimestamp rt now w = rt.toISOString t := by
      cases w with
      | str s =>
        by_cases hs : s = ""
        · exact ⟨now, by simp [normalizeTimestamp, hs]⟩
        · cases hp : rt.parse s with
          | none => exact ⟨now, by simp [normalizeTimestamp, hs, hp]⟩
          | some t => exact ⟨t, by simp [normalizeTimestamp, hs, hp]⟩
      | _ => exact ⟨now, rfl⟩
    obtain ⟨t, ht⟩ := key
    exact ⟨t, ht, by rw [ht, hback]⟩

/-- C9, at an instance: the reference runtime at noon turns `"bad-date"` into
the rendering of noon, and so it does with `""`, `null` and an absent field. -/
theorem normalizeTimestamp_fallback_witness :
    refDate.parse "bad-date" = none ∧
      normalizeTimestamp refDate noon (.str "bad-date") = "2024-01-01T12:00:00.000Z" ∧
      normalizeTimestamp refDate noon (.str "") = "2024-01-01T12:00:00.000Z" ∧
      normalizeTimestamp refDate noon .null = "2024-01-01T12:00:00.000Z" ∧
      normalizeTimestamp refDate noon .undefined = "2024-01-01T12:00:00.000Z" ∧
      ∃ t : Instant, refDate.parse (normalizeTimestamp refDate noon (.num 1704110400000)) = some t :=
  have h := normalizeTimestamp_fallback refDate noon (.str "bad-date")
    (fun s hs => Or.inr (by cases hs; decide)) (jsDate_parse_toISOString _)
  ⟨by decide, h.1.trans (by decide), by decide, by decide, by decide,
    (h.2 (.num 1704110400000)).imp fun _ ht => ht.2⟩

/-- C10: on a runtime that reads back what it writes and writes no empty
string, normalising the output of the normaliser again, at whatever later
instant, returns it unchanged, and every canonical string `toISOString t` is
normalised to itself. -/
theorem normalizeTimestamp_idempotent (rt : DateRuntime) (now now2 : Instant) (v : JsVal)
    (hback : ∀ t, rt.parse (rt.toISOString t) = some t)
    (hne : ∀ t, rt.toISOString t ≠ "") :
    normalizeTimestamp rt now2 (.str (normalizeTimestamp rt now v)) =
        normalizeTimestamp rt now v ∧
      ∀ t : Instant, normalizeTimestamp rt now (.str (rt.toISOString t)) = rt.toISOString t := by
  have fix : ∀ (n : Instant) (t : Instant),
      normalizeTimestamp rt n (.str (rt.toISOString t)) = rt.toISOString t := by
    intro n t
    simp [normalizeTimestamp, hne t, hback t]
  refine ⟨?_, fix now⟩
  have key : ∃ t : Instant, normalizeTimestamp rt now v = rt.toISOString t := by
    cases v with
    | str s =>
      by_cases hs : s = ""
      · exact ⟨now, by simp [normalizeTimestamp, hs]⟩
      · cases hp : rt.parse s with
        | none => exact ⟨now, by simp [normalizeTimestamp, hs, hp]⟩
        | some t => exact ⟨t, by simp [normalizeTimestamp, hs, hp]⟩
    | _ => exact ⟨now, rfl⟩
  obtain ⟨t, ht⟩ := key
  rw [ht, fix]

/-- C10, at an instance: on the reference runtime the normalised form of
`"bad-date"` at noon is still the rendering of noon when normalised again five
seconds later, and the canonical rendering of midnight is normalised to
itself. -/
theorem normalizeTimestamp_idempotent_witness :
    normalizeTimestamp refDate later (.str (normalizeTimestamp refDate noon (.str "bad-date"))) =
        normalizeTimestamp refDate noon (.str "bad-date") ∧
      normalizeTimestamp refDate noon (.str "2023-11-14T00:00:00.000Z") =
        "2023-11-14T00:00:00.000Z" :=
  have h := normalizeTimestamp_idempotent refDate noon later (.str "bad-date")
    (jsDate_parse_toISOString _) (jsDate_toISOString_ne _)
  ⟨h.1, (congrArg (fun c => normalizeTimestamp refDate noon (.str c))
    (show "2023-11-14T00:00:00.000Z" = refDate.toISOString midnight by decide)).trans
    ((h.2 midnight).trans (by decide))⟩

/-! ## C11 to C14: location ingestion -/

theorem single_eq_some {α : Type} (l : List α) (x : α) (h : single l = some x) : l = [x] := by
  match l, h with
  | [y], h => simp only [single, Option.some.injEq] at h; rw [h]

theorem filter_name_map (l : List UserRow) (f : UserRow → UserRow)
    (hf : ∀ v, (f v).name = v.name) (name : String) :
    (l.map f).filter (fun v => decide (v.name = name)) =
      (l.filter (fun v => decide (v.name = name))).map f := by
  induction l with
  | nil => rfl
  | cons v vs ih =>
    by_cases h : v.name = name
    · simp [List.filter_cons, hf, h, ih]
    · simp [List.filter_cons, hf, h, ih]

theorem setLastUpdated_name (name ts : String) (v : UserRow) :
    (if v.name = name then { v with last_updated := ts } else v).name = v.name := by
  split_ifs <;> rfl

theorem usersNamed_setLastUpdated (db : Store) (name ts : String) (locs : List LocationRow) :
    usersNamed { users := db.users.map (fun v =>
        if v.name = name then { v with last_updated := ts } else v), locations := locs } name =
      (usersNamed db name).map (fun v => { v with last_updated := ts }) := by
  unfold usersNamed
  simp only
  rw [filter_name_map _ _ (setLastUpdated_name name ts)]
  refine List.map_congr_left ?_
  intro v hv
  have hn : v.name = name := by simpa using (List.mem_filter.mp hv).2
  simp [hn]

/-- C11: the handler answers 400 and leaves both tables as they were whenever
the name is missing or empty or the location object is missing; in every
other case it goes past the validation and the answer is not 400. -/
theorem submitLocation_validation (schema : Schema) (rt : DateRuntime) (clock : Clock)
    (db : Store) (body : UpdateBody) :
    ((strTruthy body.name = false ∨ body.location = none) →
        submitLocation schema rt clock db body =
          (db, ⟨400, .error "Name and location are required"⟩)) ∧
      ((strTruthy body.name = true ∧ body.location ≠ none) →
        (submitLocation schema rt clock db body).2.status ≠ 400) := by
  unfold submitLocation
  cases hn : strTruthy body.name <;> cases hl : body.location
  · simp
  · simp
  · simp
  · simp only [Bool.true_eq_false, false_or, reduceCtorEq, false_implies, true_and, ne_eq,
      not_false_eq_true, true_implies]
    split
    · simp
    · split_ifs <;> simp

/-- C12 (as stated, refuted): Bob submits latitude 123 and longitude 500; the
answer is 200 and the row is stored with these coordinates. -/
theorem out_of_range_sample_stored :
    (submitLocation refSchema refDate noonClock bobWorld.server farUpdate).2.status = 200 ∧
      (submitLocation refSchema refDate noonClock bobWorld.server farUpdate).1.locations.map
          (fun l => (l.user_name, l.latitude, l.longitude)) =
        [("Bob", JsVal.num 123, JsVal.num 500)] := by
  decide

/-- C12 (amended): the handler checks no range and clamps nothing. For a user
the store knows, in a store that keeps the invariant of the users table and
whose locations table accepts every row, a submission is answered 200 whatever
its latitude and longitude are, and the row it appends carries them as
submitted. -/
theorem submitLocation_keeps_coordinates (schema : Schema) (rt : DateRuntime) (clock : Clock)
    (db : Store) (name : String) (location : LocationBody) (lastUpdated : JsVal) (u : UserRow)
    (hwf : db.WellFormed) (hu : u ∈ db.users) (hun : u.name = name)
    (hok : ∀ rows row, schema.locationInsertOk rows row = true) :
    (submitLocation schema rt clock db ⟨some name, some location, lastUpdated⟩).2.status = 200 ∧
      ∃ row : LocationRow,
        (submitLocation schema rt clock db ⟨some name, some location, lastUpdated⟩).1.locations =
            db.locations ++ [row] ∧
          row.latitude = location.latitude ∧ row.longitude = location.longitude := by
  have hne : name ≠ "" := hun ▸ hwf.2 u hu
  have hs := filter_name_singleton db.users u hwf.1 hu
  rw [hun] at hs
  have hsingle := usersNamed_setLastUpdated db name
    (normalizeTimestamp rt (clock 1) lastUpdated) db.locations
  simp only [usersNamed] at hsingle
  simp only [hs, List.map_cons, List.map_nil] at hsingle
  simp [submitLocation, strTruthy, hne, usersNamed, hsingle, single, hok]

/-- C12 (amended), at an instance: the out-of-range submission of Bob. -/
theorem submitLocation_keeps_coordinates_witness :
    bobWorld.server.WellFormed ∧
      (submitLocation refSchema refDate noonClock bobWorld.server farUpdate).2.status = 200 ∧
      ∃ row : LocationRow,
        (submitLocation refSchema refDate noonClock bobWorld.server farUpdate).1.locations =
            bobWorld.server.locations ++ [row] ∧
          row.latitude = JsVal.num 123 ∧ row.longitude = JsVal.num 500 :=
  have h := submitLocation_keeps_coordinates refSchema refDate noonClock bobWorld.server "Bob"
    ⟨.num 123, .num 500, .num 5, .str "Nowhere", .str "2024-01-01T08:00:00.000Z"⟩ .undefined
    ⟨"Bob", "1704110000000", some true, "2024-01-01T11:53:20.000Z", "2024-01-01T12:00:00.000Z",
      some false, none, none, none, none⟩
    (by decide) (by decide) rfl (fun _ _ => rfl)
  ⟨by decide, h.1, h.2⟩

/-- C13: a submission answered 200 has appended exactly one row after the
rows that were there, which stay as they were: the row carries the submitted
name, latitude, longitude, accuracy and place name unchanged, its
`recorded_at` is the normalised `location.timestamp`, and its `created_at` is
the server's clock, read by the handler and not taken from the request. -/
theorem submitLocation_appends_row (schema : Schema) (rt : DateRuntime) (clock : Clock)
    (db : Store) (body : UpdateBody)
    (h200 : (submitLocation schema rt clock db body).2.status = 200) :
    ∃ (name : String) (location : LocationBody),
      body.name = some name ∧ body.location = some location ∧
        (submitLocation schema rt clock db body).1.locations =
          db.locations ++
            [⟨name, location.latitude, location.longitude, location.accuracy,
              location.locationName, normalizeTimestamp rt (clock 0) location.timestamp,
              rt.toISOString (clock 2)⟩] := by
  cases hn : body.name with
  | none => simp [submitLocation, hn, strTruthy] at h200
  | some name =>
    cases hl : body.location with
    | none =>
      cases ht : strTruthy (some name) <;> simp [submitLocation, hn, hl, ht] at h200
    | some location =>
      refine ⟨name, location, rfl, rfl, ?_⟩
      cases ht : strTruthy (some name) with
      | false => simp [submitLocation, hn, hl, ht] at h200
      | true =>
        simp only [submitLocation, hn, hl, ht, Option.getD_some] at h200 ⊢
        split at h200
        · simp at h200
        · split_ifs at h200 with hok
          · simp only [*]
            simp [hok]
          · simp at h200

/-- C13, at an instance: Bob's update of 08:00. -/
theorem submitLocation_appends_row_witness :
    (submitLocation refSchema refDate noonClock bobWorld.server bobUpdate).2.status = 200 ∧
      (submitLocation refSchema refDate noonClock bobWorld.server bobUpdate).1.locations =
        [⟨"Bob", .num 17, .num 78, .num 5, .str "Campus", "2024-01-01T08:00:00.000Z",
          "2024-01-01T12:00:00.000Z"⟩] :=
  have ⟨_, _, hn, hl, h⟩ := submitLocation_appends_row refSchema refDate noonClock
    bobWorld.server bobUpdate (by decide)
  ⟨by decide, h.trans (by cases hn; cases hl; decide)⟩

/-- C14 (as stated, refuted): Bob's sample was captured at 08:00:00 and the
request carries `lastUpdated` 08:00:03; after the successful submission the
user's `last_updated` is 08:00:03 while the new row's `recorded_at` is
08:00:00. -/
theorem lastUpdated_differs_from_recordedAt :
    (submitLocation refSchema refDate noonClock bobWorld.server bobUpdate).2.status = 200 ∧
      (submitLocation refSchema refDate noonClock bobWorld.server bobUpdate).1.users.map
          (fun u => (u.name, u.last_updated)) = [("Bob", "2024-01-01T08:00:03.000Z")] ∧
      (submitLocation refSchema refDate noonClock bobWorld.server bobUpdate).1.locations.map
          (fun l => (l.user_name, l.recorded_at)) = [("Bob", "2024-01-01T08:00:00.000Z")] := by
  decide

/-- C14 (amended): after a submission answered 200 the one user row of that
name has as `last_updated` the normalised `lastUpdated` field of the request
(the server's current instant when the field is absent or unreadable), while
the appended row has as `recorded_at` the normalised `location.timestamp`:
two separate normalisations of two separate fields. -/
theorem submitLocation_lastUpdated (schema : Schema) (rt : DateRuntime) (clock : Clock)
    (db : Store) (body : UpdateBody)
    (h200 : (submitLocation schema rt clock db body).2.status = 200) :
    ∃ (name : String) (location : LocationBody) (u : UserRow) (row : LocationRow),
      body.name = some name ∧ body.location = some location ∧
        usersNamed (submitLocation schema rt clock db body).1 name = [u] ∧
        u.last_updated = normalizeTimestamp rt (clock 1) body.lastUpdated ∧
        (submitLocation schema rt clock db body).1.locations = db.locations ++ [row] ∧
        row.recorded_at = normalizeTimestamp rt (clock 0) location.timestamp := by
  cases hn : body.name with
  | none => simp [submitLocation, hn, strTruthy] at h200
  | some name =>
    cases hl : body.location with
    | none =>
      cases ht : strTruthy (some name) <;> simp [submitLocation, hn, hl, ht] at h200
    | some location =>
      cases ht : strTruthy (some name) with
      | false => simp [submitLocation, hn, hl, ht] at h200
      | true =>
        have hmap := usersNamed_setLastUpdated db name
          (normalizeTimestamp rt (clock 1) body.lastUpdated)
        simp only [submitLocation, hn, hl, ht, Option.getD_some] at h200 ⊢
        cases hs : single (usersNamed ⟨db.users.map (fun v =>
            if v.name = name then
              { v with last_updated := normalizeTimestamp rt (clock 1) body.lastUpdated }
            else v), db.locations⟩ name) with
        | none => simp [hs] at h200
        | some updated =>
          have hlist := single_eq_some _ _ hs
          have hmem : updated ∈ (usersNamed db name).map (fun v =>
              { v with last_updated := normalizeTimestamp rt (clock 1) body.lastUpdated }) := by
            rw [← hmap db.locations, hlist]
            exact List.mem_singleton_self _
          obtain ⟨w, _, hw⟩ := List.mem_map.mp hmem
          have hupd : updated.last_updated =
              normalizeTimestamp rt (clock 1) body.lastUpdated := by
            rw [← hw]
          simp only [hs] at h200 ⊢
          split_ifs at h200 ⊢ with hok
          · refine ⟨name, location, updated, _, rfl, rfl, ?_, hupd, rfl, rfl⟩
            rw [← hlist]
            rfl
          · simp at h200

/-- C14 (amended), at an instance: Bob's update of 08:00, sent at 08:00:03. -/
theorem submitLocation_lastUpdated_witness :
    (submitLocation refSchema refDate noonClock bobWorld.server bobUpdate).2.status = 200 ∧
      ∃ u : UserRow,
        usersNamed (submitLocation refSchema refDate noonClock bobWorld.server bobUpdate).1 "Bob"
          = [u] ∧ u.last_updated = "2024-01-01T08:00:03.000Z" :=
  have ⟨_, _, u, _, hn, _, hu, hlu, _, _⟩ := submitLocation_lastUpdated refSchema refDate
    noonClock bobWorld.server bobUpdate (by decide)
  ⟨by decide, u, by cases hn; exact hu, hlu.trans (by decide)⟩

/-! ## C15 to C17: deactivation -/

theorem listActiveUsers_mem (rt : DateRuntime) (db : Store) (view : UserView)
    (h : view ∈ listActiveUsers rt db) :
    ∃ v ∈ db.users, v.is_active = some true ∧ view.name = v.name := by
  unfold listActiveUsers selectActiveUsers at h
  obtain ⟨v, hv, rfl⟩ := List.mem_map.mp h
  rw [List.mem_insertionSort] at hv
  obtain ⟨hv1, hv2⟩ := List.mem_filter.mp hv
  exact ⟨v, hv1, by simpa using hv2, rfl⟩

theorem deactivated_name (name : String) (v : UserRow) :
    (if v.name = name then { v with is_active := some false, is_tracking := some false }
      else v).name = v.name := by
  split_ifs <;> rfl

theorem deactivateUser_of_mem (db : Store) (name : String) (u : UserRow)
    (hwf : db.WellFormed) (hu : u ∈ db.users) (hun : u.name = name) :
    deactivateUser db name =
      (⟨db.users.map (fun v =>
          if v.name = name then { v with is_active := some false, is_tracking := some false }
          else v), db.locations⟩, ⟨200, .message "User deactivated"⟩) := by
  have hs := filter_name_singleton db.users u hwf.1 hu
  rw [hun] at hs
  have hm := filter_name_map db.users _ (deactivated_name name) name
  rw [hs] at hm
  simp only [deactivateUser, usersNamed, hm, List.map_cons, List.map_nil, single]

/-- C15: in a store that keeps the invariant of the users table, deactivating
the name of an existing user is answered 200; that user's row gets
`is_active = false` and `is_tracking = false` and is otherwise as it was, every
row of another name and every location row is as it was, and no projection of
`GET /api/users` carries the name afterwards. -/
theorem deactivateUser_frame (rt : DateRuntime) (db : Store) (name : String) (u : UserRow)
    (hwf : db.WellFormed) (hu : u ∈ db.users) (hun : u.name = name) :
    (deactivateUser db name).2.status = 200 ∧
      (deactivateUser db name).1.locations = db.locations ∧
      (deactivateUser db name).1.users = db.users.map (fun v =>
        if v = u then { u with is_active := some false, is_tracking := some false } else v) ∧
      (∀ view ∈ listActiveUsers rt (deactivateUser db name).1, view.name ≠ name) := by
  rw [deactivateUser_of_mem db name u hwf hu hun]
  refine ⟨rfl, rfl, ?_, ?_⟩
  · refine List.map_congr_left ?_
    intro v hv
    by_cases hvn : v.name = name
    · have hvu : v = u := List.inj_on_of_nodup_map hwf.1 hv hu (hvn.trans hun.symm)
      simp [hvu, hun]
    · have hvu : v ≠ u := fun h => hvn (h ▸ hun)
      simp [hvn, hvu]
  · intro view hview hname
    obtain ⟨v, hv, hact, hvn⟩ := listActiveUsers_mem rt _ view hview
    obtain ⟨w, _, rfl⟩ := List.mem_map.mp hv
    by_cases hwn : w.name = name
    · simp [hwn] at hact
    · simp only [hwn, if_false] at hvn
      exact hwn (hvn ▸ hname)

/-- C15, at an instance: Alice is deactivated in a store that also holds Bob
and one of his samples. -/
theorem deactivateUser_frame_witness :
    (deactivateUser
        (registerUser refSchema refDate noonClock bobStore (registration "Alice")).1
        "Alice").1.users.map (fun u => (u.name, u.is_active, u.is_tracking)) =
        [("Bob", some true, some false), ("Alice", some false, some false)] ∧
      (∀ view ∈ listActiveUsers refDate (deactivateUser
        (registerUser refSchema refDate noonClock bobStore (registration "Alice")).1
        "Alice").1, view.name ≠ "Alice") :=
  have h := deactivateUser_frame refDate
    (registerUser refSchema refDate noonClock bobStore (registration "Alice")).1 "Alice"
    ⟨"Alice", "1704110000000", some true, "2024-01-01T11:53:20.000Z", "2024-01-01T12:00:00.000Z",
      some false, none, none, none, none⟩
    (by decide) (by decide) rfl
  ⟨by decide, h.2.2.2⟩

/-- C16 (as stated, refuted): deactivating a name no user carries is answered
500, not 200. -/
theorem deactivate_missing_user_fails :
    deactivateUser aliceStore "Ghost" =
      (aliceStore, ⟨500, .error "Failed to deactivate user"⟩) := by
  decide

/-- C16 (amended): deactivating a name that no user row carries leaves the
store as it was and is answered 500, because the update finds no row to
return; in a store that keeps the invariant of the users table, deactivating a
user that is already inactive and not tracking leaves the store as it was and
is answered 200. -/
theorem deactivateUser_missing_or_inactive (db : Store) (name : String) :
    ((∀ v ∈ db.users, v.name ≠ name) →
        deactivateUser db name = (db, ⟨500, .error "Failed to deactivate user"⟩)) ∧
      (∀ u : UserRow, db.WellFormed → u ∈ db.users → u.name = name →
        u.is_active = some false → u.is_tracking = some false →
        deactivateUser db name = (db, ⟨200, .message "User deactivated"⟩)) := by
  constructor
  · intro hfree
    have hm := filter_name_map db.users _ (deactivated_name name) name
    rw [filter_name_nil db.users name hfree] at hm
    simp only [deactivateUser, usersNamed, hm, List.map_nil, single]
  · intro u hwf hu hun hact htr
    rw [deactivateUser_of_mem db name u hwf hu hun]
    have hid : db.users.map (fun v =>
        if v.name = name then { v with is_active := some false, is_tracking := some false }
        else v) = db.users := by
      conv_rhs => rw [← List.map_id db.users]
      refine List.map_congr_left ?_
      intro v hv
      by_cases hvn : v.name = name
      · have hvu : v = u := List.inj_on_of_nodup_map hwf.1 hv hu (hvn.trans hun.symm)
        subst hvu
        cases v
        simp only at hact htr
        simp [hvn, hact, htr]
      · simp [hvn]
    rw [hid]

/-- C16 (amended), at an instance: a name nobody carries, and Alice once she
is deactivated. -/
theorem deactivateUser_missing_or_inactive_witness :
    deactivateUser aliceGone "Ghost" =
        (aliceGone, ⟨500, .error "Failed to deactivate user"⟩) ∧
      deactivateUser aliceGone "Alice" = (aliceGone, ⟨200, .message "User deactivated"⟩) :=
  ⟨(deactivateUser_missing_or_inactive aliceGone "Ghost").1 (by decide),
    (deactivateUser_missing_or_inactive aliceGone "Alice").2
      ⟨"Alice", "1704110000000", some false, "2024-01-01T11:53:20.000Z",
        "2024-01-01T12:00:00.000Z", some false, none, none, none, none⟩
      (by decide) (by decide) rfl rfl rfl⟩

theorem deleteUsersRequest_clear_all (verify : String → Option String) (token : Option String)
    (db : Store) :
    deleteUsersRequest verify token db "clear-all" =
      match authenticateAdmin verify token with
      | .error resp => (db, resp)
      | .ok _ => deactivateUser db "clear-all" := by
  have h : deleteRoutes.find? (fun r => r.1.accepts "clear-all") =
      some (.param, .deactivate) := by decide
  simp only [deleteUsersRequest, h]

/-- C17 (code defect): the claim asks that `DELETE /api/users/clear-all`
deactivate every active user and answer 200. The route `/api/users/:name` is
registered first and takes the request with the name `clear-all`: with a valid
admin token and Alice active, the answer is 500 and Alice stays active, where
the handler registered for clear-all would have deactivated her. -/
theorem clear_all_request_deactivates_nobody :
    deleteUsersRequest oneToken (some "valid-token") aliceStore "clear-all" =
        (aliceStore, ⟨500, .error "Failed to deactivate user"⟩) ∧
      aliceStore.users.map (fun u => (u.name, u.is_active)) = [("Alice", some true)] ∧
      (clearAllUsers aliceStore).1.users.map (fun u => (u.name, u.is_active)) =
        [("Alice", some false)] := by
  decide

/-! ## C18 to C20: the admin tracking controller -/

theorem wellFormed_map (db : Store) (f : UserRow → UserRow) (hf : ∀ v, (f v).name = v.name)
    (locs : List LocationRow) (hwf : db.WellFormed) :
    Store.WellFormed ⟨db.users.map f, locs⟩ := by
  refine wellFormed_of_names db _ ?_ hwf
  simp only [List.map_map]
  refine List.map_congr_left ?_
  intro v _
  exact hf v

theorem startTracking_wellFormed (rt : DateRuntime) (clock : Clock) (admin : AdminUser)
    (db : Store) (body : TrackingBody) (hwf : db.WellFormed) :
    (startTracking rt clock admin db body).1.WellFormed := by
  unfold startTracking
  split_ifs
  · exact wellFormed_map db _ (fun v => by split_ifs <;> rfl) _ hwf
  · exact hwf

theorem stopTracking_wellFormed (rt : DateRuntime) (clock : Clock) (admin : AdminUser)
    (db : Store) (body : TrackingBody) (hwf : db.WellFormed) :
    (stopTracking rt clock admin db body).1.WellFormed := by
  unfold stopTracking
  split_ifs
  · exact wellFormed_map db _ (fun v => by split_ifs <;> rfl) _ hwf
  · exact hwf

theorem startAllTracking_wellFormed (rt : DateRuntime) (clock : Clock) (admin : AdminUser)
    (db : Store) (hwf : db.WellFormed) : (startAllTracking rt clock admin db).1.WellFormed :=
  wellFormed_map db _ (fun v => by split_ifs <;> rfl) _ hwf

theorem stopAllTracking_wellFormed (rt : DateRuntime) (clock : Clock) (admin : AdminUser)
    (db : Store) (hwf : db.WellFormed) : (stopAllTracking rt clock admin db).1.WellFormed :=
  wellFormed_map db _ (fun v => by split_ifs <;> rfl) _ hwf

theorem clearAllUsers_wellFormed (db : Store) (hwf : db.WellFormed) :
    (clearAllUsers db).1.WellFormed :=
  wellFormed_map db (fun u => { u with is_active := some false }) (fun _ => rfl) db.locations hwf

theorem deleteUsersRequest_wellFormed (verify : String → Option String)
    (token : Option String) (db : Store) (segment : String) (hwf : db.WellFormed) :
    (deleteUsersRequest verify token db segment).1.WellFormed := by
  unfold deleteUsersRequest
  split
  · exact hwf
  · split
    · exact hwf
    · split
      · exact deactivateUser_wellFormed db segment hwf
      · exact clearAllUsers_wellFormed db hwf

theorem map_eq_self_of_forall (l : List UserRow) (f : UserRow → UserRow)
    (h : ∀ v ∈ l, f v = v) : l.map f = l := by
  conv_rhs => rw [← List.map_id l]
  exact List.map_congr_left h

/-- C18 (as stated, refuted): starting and stopping tracking for a name
nobody carries, and for Alice who is inactive, are answered 200, not with a
not-found error; the store stays as it was. -/
theorem tracking_unknown_user_succeeds :
    startTracking refDate noonClock rootAdmin aliceGone ⟨some "Ghost"⟩ =
        (aliceGone, ⟨200, .stamped "Started tracking for user: Ghost"
          "2024-01-01T12:00:00.000Z"⟩) ∧
      startTracking refDate noonClock rootAdmin aliceGone ⟨some "Alice"⟩ =
        (aliceGone, ⟨200, .stamped "Started tracking for user: Alice"
          "2024-01-01T12:00:00.000Z"⟩) ∧
      stopTracking refDate noonClock rootAdmin aliceGone ⟨some "Ghost"⟩ =
        (aliceGone, ⟨200, .stamped "Stopped tracking for user: Ghost"
          "2024-01-01T12:00:00.000Z"⟩) ∧
      stopTracking refDate noonClock rootAdmin aliceGone ⟨some "Alice"⟩ =
        (aliceGone, ⟨200, .stamped "Stopped tracking for user: Alice"
          "2024-01-01T12:00:00.000Z"⟩) := by
  decide

/-- C18 (amended): for a non-empty user name that no active user carries,
that is for a name that does not exist or belongs to an inactive user,
starting and stopping tracking change no row and are answered with success
(200): the handlers check for no affected row. -/
theorem tracking_unknown_user_noop (rt : DateRuntime) (clock : Clock) (admin : AdminUser)
    (db : Store) (name : String) (hne : name ≠ "")
    (hnone : ∀ v ∈ db.users, v.name = name → v.is_active ≠ some true) :
    startTracking rt clock admin db ⟨some name⟩ =
        (db, ⟨200, .stamped ("Started tracking for user: " ++ name)
          (rt.toISOString (clock 1))⟩) ∧
      stopTracking rt clock admin db ⟨some name⟩ =
        (db, ⟨200, .stamped ("Stopped tracking for user: " ++ name)
          (rt.toISOString (clock 1))⟩) := by
  have hcond : ∀ v ∈ db.users, ¬ (v.name = name ∧ v.is_active = some true) :=
    fun v hv h => hnone v hv h.1 h.2
  constructor
  · have hid := map_eq_self_of_forall db.users (fun u =>
      if u.name = name ∧ u.is_active = some true then
        { u with
          is_tracking := some true
          admin_tracking_started := some (rt.toISOString (clock 0))
          admin_tracking_started_by := writeBy admin u.admin_tracking_started_by }
      else u) (fun v hv => if_neg (hcond v hv))
    simp only [startTracking, strTruthy_some name hne, if_true, Option.getD_some, hid]
  · have hid := map_eq_self_of_forall db.users (fun u =>
      if u.name = name ∧ u.is_active = some true then
        { u with
          is_tracking := some false
          admin_tracking_stopped := some (rt.toISOString (clock 0))
          admin_tracking_stopped_by := writeBy admin u.admin_tracking_stopped_by }
      else u) (fun v hv => if_neg (hcond v hv))
    simp only [stopTracking, strTruthy_some name hne, if_true, Option.getD_some, hid]

/-- C18 (amended), at an instance: Alice, inactive, in `aliceGone`. -/
theorem tracking_unknown_user_noop_witness :
    (aliceGone.users.map fun u => (u.name, u.is_active)) = [("Alice", some false)] ∧
      (startTracking refDate noonClock rootAdmin aliceGone ⟨some "Alice"⟩).1 = aliceGone ∧
      (startTracking refDate noonClock rootAdmin aliceGone ⟨some "Alice"⟩).2.status = 200 ∧
      (stopTracking refDate noonClock rootAdmin aliceGone ⟨some "Alice"⟩).1 = aliceGone :=
  have h := tracking_unknown_user_noop refDate noonClock rootAdmin aliceGone "Alice"
    (by decide) (by decide)
  ⟨by decide, by rw [h.1], by rw [h.1], by rw [h.2]⟩

/-- C19: in a store that keeps the invariant of the users table, for an
active user and an admin principal that carries a name, starting tracking is
answered 200 and rewrites that user's row alone: `is_tracking` becomes true,
`admin_tracking_started` the current instant and `admin_tracking_started_by`
the principal's name, while the stopped pair and every other field keep their
values; stopping tracking sets `is_tracking` to false and writes the stopped
pair alone, the started pair keeping its values. No other row changes. -/
theorem startTracking_frame (rt : DateRuntime) (clock : Clock) (admin : AdminUser) (db : Store)
    (name a : String) (u : UserRow)
    (hwf : db.WellFormed) (hu : u ∈ db.users) (hun : u.name = name)
    (hact : u.is_active = some true) (ha : admin.name = some a) :
    startTracking rt clock admin db ⟨some name⟩ =
        (⟨db.users.map (fun v =>
            if v = u then
              { u with
                is_tracking := some true
                admin_tracking_started := some (rt.toISOString (clock 0))
                admin_tracking_started_by := some a }
            else v), db.locations⟩,
          ⟨200, .stamped ("Started tracking for user: " ++ name) (rt.toISOString (clock 1))⟩) ∧
      stopTracking rt clock admin db ⟨some name⟩ =
        (⟨db.users.map (fun v =>
            if v = u then
              { u with
                is_tracking := some false
                admin_tracking_stopped := some (rt.toISOString (clock 0))
                admin_tracking_stopped_by := some a }
            else v), db.locations⟩,
          ⟨200, .stamped ("Stopped tracking for user: " ++ name) (rt.toISOString (clock 1))⟩) := by
  have hne : name ≠ "" := hun ▸ hwf.2 u hu
  have hcases : ∀ v ∈ db.users, (v.name = name ∧ v.is_active = some true) ↔ v = u := by
    intro v hv
    constructor
    · intro h
      exact List.inj_on_of_nodup_map hwf.1 hv hu (h.1.trans hun.symm)
    · intro h
      exact h ▸ ⟨hun, hact⟩
  constructor
  · simp only [startTracking, strTruthy_some name hne, if_true, Option.getD_some]
    congr 2
    refine List.map_congr_left ?_
    intro v hv
    by_cases hvu : v = u
    · simp [hvu, hun, hact, writeBy, ha]
    · have := (hcases v hv).not.mpr hvu
      simp [hvu, this]
  · simp only [stopTracking, strTruthy_some name hne, if_true, Option.getD_some]
    congr 2
    refine List.map_congr_left ?_
    intro v hv
    by_cases hvu : v = u
    · simp [hvu, hun, hact, writeBy, ha]
    · have := (hcases v hv).not.mpr hvu
      simp [hvu, this]

/-- C19, at an instance: tracking of Bob is started by `admin` at noon and
stopped again; the row written by the start keeps its started pair through
the stop. -/
theorem startTracking_frame_witness :
    startTracking refDate noonClock rootAdmin bobStore ⟨some "Bob"⟩ =
        (⟨bobStore.users.map (fun v =>
            if v = bobRow then
              { bobRow with
                is_tracking := some true
                admin_tracking_started := some (refDate.toISOString (noonClock 0))
                admin_tracking_started_by := some "admin" }
            else v), bobStore.locations⟩,
          ⟨200, .stamped ("Started tracking for user: " ++ "Bob")
            (refDate.toISOString (noonClock 1))⟩) ∧
      (startTracking refDate noonClock rootAdmin bobStore ⟨some "Bob"⟩).1.users.map
        (fun u => (u.name, u.is_tracking, u.admin_tracking_started_by,
          u.admin_tracking_stopped_by)) = [("Bob", some true, some "admin", none)] ∧
      (stopTracking refDate noonClock rootAdmin
          (startTracking refDate noonClock rootAdmin bobStore ⟨some "Bob"⟩).1
          ⟨some "Bob"⟩).1.users.map
        (fun u => (u.name, u.is_tracking, u.admin_tracking_started_by,
          u.admin_tracking_stopped_by)) = [("Bob", some false, some "admin", some "admin")] :=
  ⟨(startTracking_frame refDate noonClock rootAdmin bobStore "Bob" "admin" bobRow
      (by decide) (by decide) rfl rfl rfl).1, by decide, by decide⟩

theorem authenticateAdmin_ok (verify : String → Option String) (token : Option String)
    (admin : AdminUser) (h : authenticateAdmin verify token = .ok admin) :
    ∃ t a, token = some t ∧ verify t = some a ∧ admin = ⟨some a⟩ := by
  unfold authenticateAdmin at h
  cases token with
  | none => simp at h
  | some t =>
    cases hv : verify t with
    | none => simp [hv] at h
    | some a =>
      simp only [hv, Except.ok.injEq] at h
      exact ⟨t, a, rfl, hv, h.symm⟩

/-- The by-column stays as it was when `req.adminUser` has no `name`, as with
the claims `{ username, role }` of the token that `/api/admin/login` signs. -/
theorem startAllTracking_without_name (rt : DateRuntime) (clock : Clock) (db : Store) :
    (startAllTracking rt clock tokenClaims db).1.users = db.users.map (fun v =>
      if v.is_active = some true then
        { v with
          is_tracking := some true
          admin_tracking_started := some (rt.toISOString (clock 0)) }
      else v) := by
  simp only [startAllTracking, writeBy, tokenClaims]

/-- C20: when the admin identity verifier accepts the credential and yields
the principal `admin`, start-all is answered 200, sets `is_tracking` to true
on every active user and records the current instant and the name the
verifier gave for the credential in the started pair, and leaves every row
that is not active and every other field as it was; stop-all does the same
with `is_tracking` false and the stopped pair. -/
theorem startAllTracking_records_admin (rt : DateRuntime) (clock : Clock)
    (verify : String → Option String) (token : Option String) (admin : AdminUser) (db : Store)
    (hauth : authenticateAdmin verify token = .ok admin) :
    ∃ (t a : String), token = some t ∧ verify t = some a ∧
      startAllTracking rt clock admin db =
        (⟨db.users.map (fun v =>
            if v.is_active = some true then
              { v with
                is_tracking := some true
                admin_tracking_started := some (rt.toISOString (clock 0))
                admin_tracking_started_by := some a }
            else v), db.locations⟩,
          ⟨200, .stamped "Started tracking for all users" (rt.toISOString (clock 1))⟩) ∧
      stopAllTracking rt clock admin db =
        (⟨db.users.map (fun v =>
            if v.is_active = some true then
              { v with
                is_tracking := some false
                admin_tracking_stopped := some (rt.toISOString (clock 0))
                admin_tracking_stopped_by := some a }
            else v), db.locations⟩,
          ⟨200, .stamped "Stopped tracking for all users" (rt.toISOString (clock 1))⟩) := by
  obtain ⟨t, a, ht, hv, rfl⟩ := authenticateAdmin_ok verify token admin hauth
  exact ⟨t, a, ht, hv, rfl, rfl⟩

/-- C20, at an instance: Bob is active and Alice is not; `admin` starts
tracking for all. -/
theorem startAllTracking_records_admin_witness :
    authenticateAdmin oneToken (some "valid-token") = .ok rootAdmin ∧
      (∃ t a : String, some "valid-token" = some t ∧ oneToken t = some a ∧
        (startAllTracking refDate noonClock rootAdmin bobAndAliceGone).2.status = 200) ∧
      (startAllTracking refDate noonClock rootAdmin bobAndAliceGone).1.users.map
        (fun u => (u.name, u.is_active, u.is_tracking, u.admin_tracking_started_by)) =
        [("Bob", some true, some true, some "admin"), ("Alice", some false, some false, none)] :=
  have ⟨t, a, ht, ha, h, _⟩ := startAllTracking_records_admin refDate noonClock oneToken
    (some "valid-token") rootAdmin bobAndAliceGone
    (by simp [authenticateAdmin, oneToken, rootAdmin])
  ⟨by simp [authenticateAdmin, oneToken, rootAdmin], ⟨t, a, ht, ha, by rw [h]⟩, by decide⟩

/-! ## C21 to C23: the read routes -/

theorem getUsersRequest_tracking_status (verify : String → Option String)
    (token : Option String) (view : List LatestRow) (db : Store) :
    getUsersRequest verify token view db "tracking-status" =
      (db, getUser view "tracking-status") := by
  have h : getRoutes.find? (fun r => r.1.accepts "tracking-status") =
      some (.param, .getUser) := by decide
  simp only [getUsersRequest, h]

/-- C21 (code defect): the claim asks that `GET /api/users/tracking-status`
be answered with the map from the active user names to their tracking flags.
The route `/api/users/:name` is registered first and takes the request with
the name `tracking-status`: with a valid admin token and Bob active, the
answer is 404 `User not found`, where the handler registered for the path
would have answered with the map holding Bob's flag. -/
theorem tracking_status_request_not_found :
    getUsersRequest oneToken (some "valid-token") (latestUserLocations refDate bobStore)
        bobStore "tracking-status" = (bobStore, ⟨404, .error "User not found"⟩) ∧
      trackingStatus bobStore = (bobStore, ⟨200, .trackingStates [("Bob", false)]⟩) := by
  decide

theorem toProjection_zero_latitude (user : LatestRow) (h : user.latitude = .num 0) :
    (toProjection user).location = none := by
  simp [toProjection, h, JsVal.truthy]

/-- C22 (code defect): the claim asks for a non-null location for every
latitude in [-90, 90], 0 included. Bob's latest sample lies on the equator,
latitude 0 and longitude 78; the view row carries these coordinates and the
projection of `GET /api/users/Bob` has the location `null`, because the
handler tests `user.latitude && user.longitude`. -/
theorem getUser_equator_location_null :
    (latestUserLocations refDate equatorStore).map
        (fun r => (r.name, r.is_active, r.latitude, r.longitude)) =
        [("Bob", some true, JsVal.num 0, JsVal.num 78)] ∧
      getUser (latestUserLocations refDate equatorStore) "Bob" =
        ⟨200, .projection ⟨"Bob", "1704110000000", some true, "2024-01-01T12:00:00.000Z",
          none⟩⟩ := by
  decide

theorem newerFirst_total (rt : DateRuntime) (a b : UserRow) :
    newerFirst rt a b = true ∨ newerFirst rt b a = true := by
  unfold newerFirst
  cases tsKey rt a.last_updated <;> cases tsKey rt b.last_updated <;> simp
  omega

theorem newerFirst_trans (rt : DateRuntime) (a b c : UserRow)
    (hab : newerFirst rt a b = true) (hbc : newerFirst rt b c = true) :
    newerFirst rt a c = true := by
  unfold newerFirst at *
  cases ha : tsKey rt a.last_updated <;> cases hb : tsKey rt b.last_updated <;>
    cases hc : tsKey rt c.last_updated <;> simp_all
  omega

theorem selectActiveUsers_sorted (rt : DateRuntime) (db : Store) :
    (selectActiveUsers rt db).Sorted (fun a b => newerFirst rt a b = true) := by
  haveI : IsTotal UserRow (fun a b => newerFirst rt a b = true) := ⟨newerFirst_total rt⟩
  haveI : IsTrans UserRow (fun a b => newerFirst rt a b = true) := ⟨newerFirst_trans rt⟩
  exact List.sorted_insertionSort _ _

/-- C23: `GET /api/users` writes nothing; its projections are those of the
rows read, one each and in their order; the rows read are the active users,
each once and no inactive one, sorted by `last_updated` with the newest
first; a projection's location is null exactly when the user has no sample,
and its `isTracking` is false when the flag is unset. -/
theorem listActiveUsers_projections (rt : DateRuntime) (db : Store) :
    (getUsers rt db).1 = db ∧
      (getUsers rt db).2 = ⟨200, .users (listActiveUsers rt db)⟩ ∧
      (listActiveUsers rt db).map (fun v => (v.name, v.lastUpdated)) =
        (selectActiveUsers rt db).map (fun u => (u.name, u.last_updated)) ∧
      (selectActiveUsers rt db).Perm
        (db.users.filter (fun u => decide (u.is_active = some true))) ∧
      (selectActiveUsers rt db).Sorted (fun a b => newerFirst rt a b = true) ∧
      (∀ u : UserRow, (toUserView u (embeddedLocations db u)).location = none ↔
        embeddedLocations db u = []) ∧
      (∀ (u : UserRow) (locs : List LocationRow), u.is_tracking = none →
        (toUserView u locs).isTracking = false) := by
  refine ⟨rfl, rfl, ?_, ?_, selectActiveUsers_sorted rt db, ?_, ?_⟩
  · simp only [listActiveUsers, List.map_map]
    rfl
  · exact List.perm_insertionSort _ _
  · intro u
    cases h : embeddedLocations db u <;> simp [toUserView]
  · intro u locs h
    simp [toUserView, h]

theorem listActiveUsers_projections_witness :
    (listActiveUsers refDate bobAndAliceGone).map (fun v => (v.name, v.lastUpdated)) =
        [("Bob", "2024-01-01T12:00:00.000Z")] ∧
      bobAndAliceGone.users.map (fun u => (u.name, u.is_active)) =
        [("Bob", some true), ("Alice", some false)] ∧
      (toUserView ⟨"Carol", "1", some true, "2024-01-01T12:00:00.000Z",
        "2024-01-01T12:00:00.000Z", none, none, none, none, none⟩ []).isTracking = false ∧
      (getUsers refDate bobAndAliceGone).1 = bobAndAliceGone :=
  have h := listActiveUsers_projections refDate bobAndAliceGone
  ⟨h.2.2.1.trans (by decide), by decide, h.2.2.2.2.2.2 _ [] rfl, h.1⟩

/-! ## C24 to C26: the tracking hook -/

/-- C24 (code defect): the claim asks that a sample whose immediate send
comes back with a non-success response be queued. `updateLocation` awaits the
`fetch` and never reads `response.ok`: with an error response the queue and
the stored array are what they were, for every sample, so the sample is
dropped; only a `fetch` that throws caches it. The drain, the sibling path,
counts a response without `response.ok` as a failure. -/
theorem reportLocation_drops_on_error_response (rt : DateRuntime) (now : Instant)
    (c : Tracker) (newLocation : NewLocation) (locationName : String) :
    reportLocation rt now true .notOk c newLocation locationName =
        { c with status := some ⟨"success", "Location updated successfully!"⟩ } ∧
      (reportLocation rt now true .threw c newLocation locationName).pendingLocations =
        c.pendingLocations ++
          [⟨newLocation.latitude, newLocation.longitude, newLocation.accuracy,
            newLocation.timestamp, newLocation.method, locationName, rt.toISOString now⟩] := by
  constructor <;> rfl

theorem mount_tracker (stored : List PendingSample) :
    (Hook.mount stored).tracker.pendingLocations = stored ∧
      (Hook.mount stored).tracker.stored = stored := by
  cases stored with
  | nil => exact ⟨rfl, rfl⟩
  | cons x xs =>
    simp [Hook.mount, Hook.settle, Hook.render, Hook.runEffect, Hook.cleanup]

/-- C25: `cacheLocationForOffline` puts the sample, with its place name and
the `cachedAt` instant, at the end of `pendingLocations` and of the stored
array, the entries before it unchanged; two lists that were equal stay equal;
and after the mount of the hook `pendingLocations` is the stored array. -/
theorem cacheLocationForOffline_appends (rt : DateRuntime) (now : Instant) (c : Tracker)
    (locationData : NewLocation) (locationName : String) (stored : List PendingSample) :
    (cacheLocationForOffline rt now c locationData locationName).pendingLocations =
        c.pendingLocations ++
          [⟨locationData.latitude, locationData.longitude, locationData.accuracy,
            locationData.timestamp, locationData.method, locationName, rt.toISOString now⟩] ∧
      (cacheLocationForOffline rt now c locationData locationName).stored =
        c.stored ++
          [⟨locationData.latitude, locationData.longitude, locationData.accuracy,
            locationData.timestamp, locationData.method, locationName, rt.toISOString now⟩] ∧
      (c.pendingLocations = c.stored →
        (cacheLocationForOffline rt now c locationData locationName).pendingLocations =
          (cacheLocationForOffline rt now c locationData locationName).stored) ∧
      (Hook.mount stored).tracker.pendingLocations = stored ∧
      (Hook.mount stored).tracker.stored = stored := by
  refine ⟨rfl, rfl, ?_, mount_tracker stored⟩
  intro h
  simp [cacheLocationForOffline, h]

theorem cacheLocationForOffline_appends_witness :
    (queued [offlineSample]).pendingLocations = (queued [offlineSample]).stored ∧
      (cacheLocationForOffline refDate noon (queued [offlineSample]) capture
          "Library").pendingLocations =
        (cacheLocationForOffline refDate noon (queued [offlineSample]) capture
          "Library").stored ∧
      (cacheLocationForOffline refDate noon (queued [offlineSample]) capture
          "Library").stored =
        [offlineSample,
          ⟨.num 17, .num 78, .num 5, "2024-01-01T08:00:00.000Z", "live-tracking-3s", "Library",
            "2024-01-01T12:00:00.000Z"⟩] ∧
      (Hook.mount [offlineSample]).tracker.pendingLocations = [offlineSample] :=
  have h := cacheLocationForOffline_appends refDate noon (queued [offlineSample]) capture
    "Library" [offlineSample]
  ⟨rfl, h.2.2.1 rfl, h.2.1.trans (by decide), h.2.2.2.1⟩

/-- C26 (code defect): the claim asks that the 3-second sampling timer stay
alive while tracking is on, whatever happens to the queue. The effect of the
hook depends on `pendingLocations.length` and its cleanup clears the interval
in `intervalRef`: after `startTracking` the timer runs; once a sample is
cached, or a drain removes one, the effect's cleanup has cleared the interval,
`isTracking` is still true and no interval is running. The code's comment
calls the function a cleanup on unmount. -/
theorem enqueue_clears_sampling_timer :
    (Hook.startTracking (Hook.mount [])).isTracking = true ∧
      Hook.timerActive (Hook.startTracking (Hook.mount [])) = true ∧
      (Hook.enqueue refDate noon (Hook.startTracking (Hook.mount [])) capture
        "Campus").isTracking = true ∧
      (Hook.enqueue refDate noon (Hook.startTracking (Hook.mount [])) capture
        "Campus").running = [] ∧
      Hook.timerActive (Hook.enqueue refDate noon (Hook.startTracking (Hook.mount [])) capture
        "Campus") = false ∧
      Hook.timerActive (Hook.startTracking (Hook.mount [offlineSample])) = true ∧
      (Hook.drain allDelivered freshWorld
        (Hook.startTracking (Hook.mount [offlineSample]))).isTracking = true ∧
      Hook.timerActive (Hook.drain allDelivered freshWorld
        (Hook.startTracking (Hook.mount [offlineSample]))) = false := by
  decide

/-! ## C27: the markers of the admin console -/

theorem markerShown_zero_latitude (conv : JsVal → Option ℚ) (user : UserView)
    (location : LocationView) (hl : user.location = some location)
    (h0 : location.latitude = .num 0) : markerShown conv user = false := by
  simp [markerShown, hl, h0, JsVal.truthy]

/-- C27 (code defect): the claim asks for a marker exactly when the user has
a location with latitude in [-90, 90] and longitude in [-180, 180]. The effect
first tests `user.location.latitude && user.location.longitude`, and 0 is
falsy: Bob, whose sample lies on the equator at longitude 78, is among the
users shown, has a location in range, and gets no marker. -/
theorem marker_missing_on_equator :
    (listActiveUsers refDate equatorStore).map
        (fun v => (v.name, v.location.map (fun l => (l.latitude, l.longitude)))) =
        [("Bob", some (JsVal.num 0, JsVal.num 78))] ∧
      (listActiveUsers refDate equatorStore).map (hasValidLocation numbersOnly) = [true] ∧
      (listActiveUsers refDate equatorStore).map (markerShown numbersOnly) = [false] := by
  have h : listActiveUsers refDate equatorStore =
      [⟨"1704110000000", "Bob", some true, "2024-01-01T12:00:00.000Z", false, none, none,
        none, none,
        some ⟨.num 0, .num 78, .num 5, "2024-01-01T08:00:00.000Z", .str "Equator"⟩⟩] := by
    decide
  refine ⟨by decide, ?_, ?_⟩
  · rw [h]
    simp only [List.map, hasValidLocation, JsVal.within, JsVal.toNumber]
    norm_num
  · rw [h]
    simp [markerShown, JsVal.truthy]

/-! ## C28 and C29: failures and timestamps of a location update -/

theorem single_map_none {α β : Type} (f : α → β) (l : List α) (h : single l = none) :
    single (l.map f) = none := by
  match l, h with
  | [], _ => rfl
  | [_], h => simp [single] at h
  | _ :: _ :: _, _ => rfl

theorem normalizeTimestamp_not_string (rt : DateRuntime) (now : Instant) (v : JsVal)
    (h : ∀ s : String, v ≠ .str s) : normalizeTimestamp rt now v = rt.toISOString now := by
  cases v <;> first | rfl | exact absurd rfl (h _)

/-- C28: when the update of the user row fails, which it does when the rows
named `name` are not exactly one, `POST /api/users/update-location` answers
500 and the store, its location history included, is what it was. -/
theorem submitLocation_update_failure (schema : Schema) (rt : DateRuntime) (clock : Clock)
    (db : Store) (name : String) (location : LocationBody) (lastUpdated : JsVal)
    (hn : name ≠ "") (hnone : single (usersNamed db name) = none) :
    submitLocation schema rt clock db ⟨some name, some location, lastUpdated⟩ =
        (db, ⟨500, .error "Failed to update user location"⟩) ∧
      (submitLocation schema rt clock db ⟨some name, some location, lastUpdated⟩).1.locations =
        db.locations := by
  have h : submitLocation schema rt clock db ⟨some name, some location, lastUpdated⟩ =
      (db, ⟨500, .error "Failed to update user location"⟩) := by
    simp only [submitLocation, strTruthy_some name hn, Option.getD_some]
    rw [usersNamed_setLastUpdated, single_map_none _ _ hnone]
  exact ⟨h, by rw [h]⟩

theorem submitLocation_update_failure_witness :
    single (usersNamed aliceStore "Bob") = none ∧
      submitLocation refSchema refDate noonClock aliceStore bobUpdate =
        (aliceStore, ⟨500, .error "Failed to update user location"⟩) ∧
      (submitLocation refSchema refDate noonClock aliceStore bobUpdate).1.locations =
        aliceStore.locations :=
  ⟨by decide,
    submitLocation_update_failure refSchema refDate noonClock aliceStore "Bob"
      ⟨.num 17, .num 78, .num 5, .str "Campus", .str "2024-01-01T08:00:00.000Z"⟩
      (.str "2024-01-01T08:00:03.000Z") (by decide) (by decide)⟩

/-- C29: when `location.timestamp` is not a string, a successful
`POST /api/users/update-location` appends a row whose `recorded_at` is the
server's current instant, whatever the value sent. -/
theorem submitLocation_ignores_non_string_timestamp (schema : Schema) (rt : DateRuntime)
    (clock : Clock) (db : Store) (name : Option String) (location : LocationBody)
    (lastUpdated : JsVal) (hts : ∀ s : String, location.timestamp ≠ .str s)
    (h200 : (submitLocation schema rt clock db ⟨name, some location, lastUpdated⟩).2.status =
      200) :
    (submitLocation schema rt clock db ⟨name, some location, lastUpdated⟩).1.locations =
      db.locations ++
        [⟨name.getD "", location.latitude, location.longitude, location.accuracy,
          location.locationName, rt.toISOString (clock 0), rt.toISOString (clock 2)⟩] := by
  cases ht : strTruthy name with
  | false => simp [submitLocation, ht] at h200
  | true =>
    simp only [submitLocation, ht, normalizeTimestamp_not_string rt (clock 0) _ hts]
      at h200 ⊢
    split at h200
    · simp at h200
    · split_ifs at h200 with hok
      · simp only [*]
        simp [hok]
      · simp at h200

theorem submitLocation_ignores_non_string_timestamp_witness :
    backgroundUpdate.location.map (fun l => l.timestamp) = some (.num 1704096000000) ∧
      refDate.toISOString ⟨1704096000000, by decide⟩ = "2024-01-01T08:00:00.000Z" ∧
      (submitLocation refSchema refDate noonClock bobWorld.server backgroundUpdate).2.status =
        200 ∧
      (submitLocation refSchema refDate noonClock bobWorld.server backgroundUpdate).1.locations =
        [⟨"Bob", .num 17, .num 78, .num 5, .str "Background tracking",
          "2024-01-01T12:00:00.000Z", "2024-01-01T12:00:00.000Z"⟩] :=
  ⟨by decide, by decide, by decide,
    (submitLocation_ignores_non_string_timestamp refSchema refDate noonClock bobWorld.server
      (some "Bob") ⟨.num 17, .num 78, .num 5, .str "Background tracking", .num 1704096000000⟩
      (.str "2024-01-01T08:00:03.000Z") (by intro s; simp) (by decide)).trans (by decide)⟩

/-! ## C30: marker colours -/

theorem toInt32_range (x : Int) : -2147483648 ≤ toInt32 x ∧ toInt32 x < 2147483648 := by
  unfold toInt32
  omega

theorem utf16Units_lt (s : String) : ∀ c ∈ utf16Units s, c < 65536 := by
  intro c hc
  simp only [utf16Units, List.mem_flatMap] at hc
  obtain ⟨ch, _, hmem⟩ := hc
  have hv : ch.toNat < 1114112 := by
    have := ch.valid
    simp only [Char.toNat, UInt32.toNat]
    rcases this with h | h
    · have := h
      simp only [UInt32.toNat] at this ⊢
      omega
    · have := h.2
      simp only [UInt32.toNat] at this ⊢
      omega
  split_ifs at hmem with hlt
  · simp only [List.mem_singleton] at hmem
    omega
  · simp only [List.mem_cons, List.mem_singleton, List.not_mem_nil, or_false] at hmem
    omega

theorem foldl_hash_bound (units : List Nat) (hu : ∀ c ∈ units, c < 65536) :
    ∀ (hash : Int) (b : Nat), hash.natAbs ≤ b →
      (units.foldl (fun (hash : Int) (c : Nat) => (c : Int) + (shiftLeft5 hash - hash))
        hash).natAbs ≤ b + units.length * 2147549183 := by
  induction units with
  | nil => intro hash b hb; simpa using hb
  | cons c cs ih =>
    intro hash b hb
    have hc : c < 65536 := hu c (List.mem_cons_self _ _)
    have hr := toInt32_range (toInt32 hash * 32)
    have hstep : ((c : Int) + (shiftLeft5 hash - hash)).natAbs ≤ b + 2147549183 := by
      unfold shiftLeft5
      omega
    have := ih (fun x hx => hu x (List.mem_cons_of_mem _ hx)) _ _ hstep
    simp only [List.foldl_cons, List.length_cons]
    omega

/-- C30: for every name, the empty one and names whose hash overflows the
32-bit shift included, `getUserColor` computes an index below 15 and returns
the palette entry at that index, never `undefined`; the colour depends on the
name only; and the hash of a name of `n` code units is at most
`n * (2^31 + 65535)` in absolute value. -/
theorem getUserColor_total (userName other : String) :
    colorIndex userName < 15 ∧
      (∃ colour ∈ markerColors, getUserColor userName = some colour) ∧
      (other = userName → getUserColor other = getUserColor userName) ∧
      (nameHash (utf16Units userName)).natAbs ≤ (utf16Units userName).length * 2147549183 := by
  have hlen : markerColors.length = 15 := rfl
  have hi : colorIndex userName < markerColors.length := by
    unfold colorIndex
    exact Nat.mod_lt _ (by rw [hlen]; decide)
  refine ⟨by rw [hlen] at hi; exact hi, ?_, ?_, ?_⟩
  · refine ⟨markerColors[colorIndex userName], List.getElem_mem _, ?_⟩
    unfold getUserColor
    exact List.getElem?_eq_getElem hi
  · intro h
    rw [h]
  · have := foldl_hash_bound (utf16Units userName) (utf16Units_lt userName) 0 0 (by simp)
    simpa [nameHash] using this

theorem getUserColor_total_witness :
    nameHash (utf16Units "Bartholomew") = -3013362988 ∧
      colorIndex "Bartholomew" < 15 ∧
      getUserColor "Bartholomew" = some "#74B9FF" ∧
      getUserColor "" = some "#FF6B6B" ∧
      getUserColor "Bartholomew" = getUserColor "Bartholomew" :=
  have h := getUserColor_total "Bartholomew" "Bartholomew"
  ⟨by simp [nameHash, utf16Units, shiftLeft5, toInt32], h.1,
    by simp [getUserColor, colorIndex, nameHash, utf16Units, shiftLeft5, toInt32, markerColors],
    by decide, h.2.2.1 rfl⟩

end SpotME
